import Mathlib

/-! poweroutg-mon: the reachability watchdog of `main.go`.

A shallow embedding of `src/main.go` and the properties of its monitoring loop.

Modelling conventions.

* Go's `int` values that the loop computes with (`logSkipped`, `elapsed`, the configured
  seconds) are unbounded integers.  The product `(logSkipped+1)*logEverySec` cannot wrap in a
  real run: `logSkipped` only grows on a tick whose elapsed seconds have reached the previous
  product, and a `time.Duration` holds fewer than `2^34` seconds.  The one product whose
  64-bit wrap-around an environment value can reach is the ticker period
  `time.Duration(intervalSec) * time.Second`; it is wrapped explicitly (`wrapInt64`), because
  `time.NewTicker` panics on a non-positive period.
* A `time.Time` is either the zero value (`none`) or a clock reading in nanoseconds
  (`some ns`); `time.Now()` never returns the zero value.
  `int(time.Since(failSince).Seconds())` is computed as the source computes it: `Seconds()`
  is `float64(sec) + float64(nsec)/1e9`, each operation rounded to the nearest `float64`
  (ties to even), and the conversion to `int` truncates.  For a duration shorter than `2^24`
  seconds the result is the whole seconds of the duration (`elapsedSeconds_exact`); from
  `2^24` seconds on the sum can round up to the next whole second (16777216.999999999 s gives
  16777217).  The saturation of `time.Duration` at 64 bits is left out; clock readings are
  unbounded integers.
* The outside world is an input: the environment is a function from variable names to values
  (`os.Getenv` gives `""` for an unset variable), and each tick delivered by the ticker carries
  the clock reading of that iteration, the outcome of the `ping` command and the outcome the
  `systemctl poweroff` command has if it is run in that iteration.
* Output is a list of events, one per log line or external command, in emission order.
-/

namespace PowerOutMon

/-! ## Observable events -/

/-- Log lines and external commands of the program, in the order of their source lines. -/
inductive Event where
  /-- Line 24: `[!] Invalid env KEY=VAL, using FALLBACKs`. -/
  | invalidEnv (key val : String) (fallback : Int)
  /-- Line 60: `[*] Monitor ADDR every Is, shutdown after Ts offline`. -/
  | monitorStart (addr : String) (intervalSec timeoutSec : Int)
  /-- Line 68: `[!] Ping err: ...`. -/
  | pingErr
  /-- Line 71: `[+] Ping OK`. -/
  | pingOK
  /-- Line 76: `[!] Ping failed, timer started`. -/
  | timerStarted
  /-- Line 81: `[!] Ping failed for ELAPSEDs/TIMEOUTs`. -/
  | progress (elapsed timeoutSec : Int)
  /-- Line 45: `[!] Poweroff triggered`, the first statement of `poweroff`. -/
  | poweroffTriggered
  /-- Lines 46-49: the command `systemctl poweroff` is run. -/
  | systemctlPoweroff
  /-- Line 86: `[!] Poweroff err: ...`. -/
  | poweroffErr
  /-- Line 123: `[!] Invalid time values, aborting`. -/
  | invalidTimeValues
  /-- Line 127: `[!] Address to monitor is empty, aborting`. -/
  | addressEmpty
  deriving DecidableEq, Repr

/-! ## `strconv.Atoi` and `getenvInt` -/

/-- Value of a string of decimal digits, most significant digit first. -/
def digitsValue (cs : List Char) : Nat :=
  cs.foldl (fun n c => n * 10 + (c.toNat - 48)) 0

/-- The standard library's `strconv.Atoi` on a 64-bit platform: an optional sign `+` or `-`
followed by at least one decimal digit and nothing else, the value within the range of `int`;
`none` stands for a non-nil error. -/
def atoi (s : String) : Option Int :=
  let cs := s.toList
  let neg := cs.head? == some '-'
  let ds := if cs.head? == some '-' || cs.head? == some '+' then cs.tail else cs
  if ds.isEmpty || !(ds.all Char.isDigit) then none
  else
    let v : Int := (digitsValue ds : Nat)
    let n : Int := if neg then -v else v
    if n < -(9223372036854775808 : Int) || (9223372036854775807 : Int) < n then none
    else some n

/-- Lines 17-28, `getenvInt`: the value returned and the log lines written. -/
def getenvInt (env : String → String) (key : String) (fallback : Int) : Int × List Event :=
  let val := env key
  if val = "" then (fallback, [])
  else
    match atoi val with
    | none => (fallback, [Event.invalidEnv key val fallback])
    | some n =>
      if n ≤ 0 then (fallback, [Event.invalidEnv key val fallback])
      else (n, [])

/-! ## `ping` and `poweroff` -/

/-- What `cmd.Run()` of the `ping` command gives back at line 33. -/
inductive RunResult where
  /-- The error is nil. -/
  | success
  /-- The error wraps `context.DeadlineExceeded`. -/
  | deadlineExceeded
  /-- Any other error. -/
  | otherError
  deriving DecidableEq, Repr

/-- Lines 31-41, `ping`: the pair `(ok, err != nil)`. -/
def ping : RunResult → Bool × Bool
  | RunResult.success => (true, false)
  | RunResult.deadlineExceeded => (false, true)
  | RunResult.otherError => (false, false)

/-- Lines 44-50, `poweroff`: logs, runs the command, and returns the command's error;
`cmdFails` says whether the command returns one. -/
def poweroff (cmdFails : Bool) : List Event × Bool :=
  ([Event.poweroffTriggered, Event.systemctlPoweroff], cmdFails)

/-! ## `monitor` -/

/-- The locals `failSince` and `logSkipped` of `monitor`. -/
structure State where
  /-- The zero `time.Time` is `none`. -/
  failSince : Option Int
  logSkipped : Int
  deriving DecidableEq, Repr

/-- The parameters `intervalSec`, `timeoutSec`, `logEverySec` of `monitor`. -/
structure Config where
  intervalSec : Int
  timeoutSec : Int
  logEverySec : Int
  deriving DecidableEq, Repr

/-- One delivery of the ticker together with what the outside world answers during that
iteration. -/
structure Tick where
  /-- Clock reading in nanoseconds used by `time.Now()` / `time.Since` in this iteration. -/
  now : Int
  /-- Outcome of the `ping` command. -/
  run : RunResult
  /-- Whether `systemctl poweroff` returns an error if it is run in this iteration. -/
  poweroffFails : Bool
  deriving DecidableEq, Repr

/-- Effect of one iteration of the loop. -/
structure StepResult where
  state : State
  events : List Event
  /-- Whether the iteration executes `return nil`. -/
  returned : Bool
  deriving DecidableEq, Repr

/-- The declaration `var failSince time.Time; logSkipped int` at lines 55-56. -/
def State.init : State := ⟨none, 0⟩

/-- How many times `x` is halved before it drops below `2^53`, at most `fuel` times: the
binary exponent of the spacing of the `float64` values around a number whose value is `x`
units. -/
def gridExp : Nat → Nat → Nat
  | 0, _ => 0
  | fuel + 1, x => if x < 9007199254740992 then 0 else gridExp fuel (x / 2) + 1

/-- The `float64` nearest to the quotient `a / b`, ties to the even mantissa, as a whole
number of units of `2^-82`.  With `b = 1` it is the conversion `float64(a)`, with `a` and `b`
the units of two `float64` values it is their quotient, and with `b = 2^82` it rounds `a`
units, which gives the sum of two `float64` values from the sum of their units.  The unit is
fine enough for every quotient that is zero or at least `2^-30`; the spacing is capped at
one, which only matters beyond `2^53`, out of the reach of a `time.Duration`. -/
def f64Quot (a b : Nat) : Nat :=
  let u := 2 ^ gridExp 82 (a * 2 ^ 82 / b)
  let n := a * 2 ^ 82 / (b * u)
  let r := a * 2 ^ 82 % (b * u)
  if 2 * r < b * u then n * u
  else if b * u < 2 * r then (n + 1) * u
  else if n % 2 = 0 then n * u else (n + 1) * u

/-- The standard library's `Duration.Seconds` on a duration of `d ≥ 0` nanoseconds, in units
of `2^-82`: `sec := d / Second; nsec := d % Second;
return float64(sec) + float64(nsec)/1e9`. -/
def durationSeconds (d : Nat) : Nat :=
  f64Quot
    (f64Quot (d / 1000000000) 1 +
      f64Quot (f64Quot (d % 1000000000) 1) (f64Quot 1000000000 1))
    (2 ^ 82)

/-- Line 79: `int(time.Since(failSince).Seconds())`.  The conversion to `int` truncates toward
zero; a negative duration gives the negated result of its absolute value, `float64`
arithmetic being symmetric. -/
def elapsedSeconds (now failSince : Int) : Int :=
  let d := now - failSince
  let s : Int := ((durationSeconds d.natAbs / 2 ^ 82 : Nat) : Int)
  if d < 0 then -s else s

/-- Lines 63-91: the body of the `case <-tick.C` branch. -/
def tickStep (cfg : Config) (s : State) (t : Tick) : StepResult :=
  let ok := (ping t.run).1
  let err := (ping t.run).2
  let evErr : List Event := if err then [Event.pingErr] else []
  if ok then
    ⟨⟨none, 0⟩, evErr ++ [Event.pingOK], false⟩
  else
    match s.failSince with
    | none => ⟨⟨some t.now, 0⟩, evErr ++ [Event.timerStarted], false⟩
    | some fs =>
      let elapsed := elapsedSeconds t.now fs
      let doLog : Bool :=
        decide ((s.logSkipped + 1) * cfg.logEverySec ≤ elapsed) || decide (cfg.timeoutSec ≤ elapsed)
      let evLog : List Event := if doLog then [Event.progress elapsed cfg.timeoutSec] else []
      let logSkipped := if doLog then s.logSkipped + 1 else s.logSkipped
      if cfg.timeoutSec ≤ elapsed then
        let evOff := (poweroff t.poweroffFails).1
        let evOffErr : List Event :=
          if (poweroff t.poweroffFails).2 then [Event.poweroffErr] else []
        ⟨⟨some fs, logSkipped⟩, evErr ++ evLog ++ evOff ++ evOffErr, true⟩
      else
        ⟨⟨some fs, logSkipped⟩, evErr ++ evLog, false⟩

/-- Lines 61-93: the `for` loop run on the ticks delivered so far, one result per iteration
executed; nothing after an iteration that returns is executed. -/
def monitorLoop (cfg : Config) : State → List Tick → List StepResult
  | _, [] => []
  | s, t :: ts =>
    (tickStep cfg s t) ::
      (if (tickStep cfg s t).returned then [] else monitorLoop cfg (tickStep cfg s t).state ts)

/-- Two-complement wrap-around of a 64-bit signed integer. -/
def wrapInt64 (x : Int) : Int :=
  (x + 9223372036854775808) % 18446744073709551616 - 9223372036854775808

/-- Line 57: `time.NewTicker(time.Duration(intervalSec) * time.Second)` panics when the
period is not positive. -/
def tickerPanics (intervalSec : Int) : Bool :=
  decide (wrapInt64 (intervalSec * 1000000000) ≤ 0)

/-- Lines 53-94, `monitor`, run on the ticks delivered so far: `none` when `NewTicker`
panics (nothing has been logged then), otherwise the results of the iterations executed. -/
def monitor (_addr : String) (cfg : Config) (ticks : List Tick) : Option (List StepResult) :=
  if tickerPanics cfg.intervalSec then none
  else some (monitorLoop cfg State.init ticks)

/-- Everything `monitor` writes or runs, in order: line 60, then the iterations. -/
def monitorLog (addr : String) (cfg : Config) (ticks : List Tick) : List Event :=
  match monitor addr cfg ticks with
  | none => []
  | some rs =>
    Event.monitorStart addr cfg.intervalSec cfg.timeoutSec :: (rs.map StepResult.events).flatten

/-! ## `main` -/

/-- How far a run of `main` got. -/
structure MainRun where
  /-- Log lines and commands, in order. -/
  log : List Event
  /-- Arguments of the call of `monitor` at line 131, if the call is made. -/
  monitorCall : Option (String × Config)
  /-- Iterations of the loop executed. -/
  steps : List StepResult
  /-- Exit status, once the process has ended; `none` while the loop is still waiting for
  a tick. -/
  exit : Option Nat
  deriving DecidableEq, Repr

/-- Lines 107-135, `main` (signal handling apart), on an environment and the ticks delivered
while it runs. -/
def main (env : String → String) (ticks : List Tick) : MainRun :=
  let addr := if env "TARGET_ADDR" = "" then "192.168.1.1" else env "TARGET_ADDR"
  let i := getenvInt env "TARGET_INTERVAL" 5
  let t := getenvInt env "TARGET_TIMEOUT" 120
  let l := getenvInt env "TARGET_LOG_EVERY" 30
  let envLog := i.2 ++ t.2 ++ l.2
  if i.1 ≤ 0 ∨ t.1 ≤ 0 ∨ l.1 ≤ 0 then
    ⟨envLog ++ [Event.invalidTimeValues], none, [], some 1⟩
  else if addr = "" then
    ⟨envLog ++ [Event.addressEmpty], none, [], some 1⟩
  else
    let cfg : Config := ⟨i.1, t.1, l.1⟩
    match monitor addr cfg ticks with
    | none => ⟨envLog, some (addr, cfg), [], some 2⟩
    | some rs =>
      ⟨envLog ++ monitorLog addr cfg ticks, some (addr, cfg), rs,
        if rs.any StepResult.returned then some 0 else none⟩

/-! ## Helpers for stating properties -/

/-- The iteration calls `poweroff`. -/
def invokesPoweroff (r : StepResult) : Prop := Event.systemctlPoweroff ∈ r.events

instance (r : StepResult) : Decidable (invokesPoweroff r) := by
  unfold invokesPoweroff; infer_instance

/-- The `ping` of this tick reports failure (`ok` is false). -/
def Tick.failed (t : Tick) : Prop := (ping t.run).1 = false

instance (t : Tick) : Decidable t.failed := by
  unfold Tick.failed; infer_instance

/-- The event is a progress line of line 81. -/
def Event.isProgress : Event → Bool
  | Event.progress _ _ => true
  | _ => false

/-- State of the locals after the loop body has been applied to every tick of `ts` in turn,
starting in `s`. -/
def stateAfter (cfg : Config) (s : State) (ts : List Tick) : State :=
  ts.foldl (fun st t => (tickStep cfg st t).state) s

/-- State of the locals before iteration number `i` (from 0) when the loop starts in `s`. -/
def stateBefore (cfg : Config) (s : State) (ts : List Tick) (i : Nat) : State :=
  stateAfter cfg s (ts.take i)

/-- The event list written ahead of everything else in an iteration: line 68. -/
def pingErrLog (t : Tick) : List Event := if (ping t.run).2 then [Event.pingErr] else []

/-- A failing tick inside a failure streak whose `elapsed`, as line 79 computes it from the
start of the streak, reaches `timeoutSec`. -/
def crossesTimeout (cfg : Config) (s : State) (t : Tick) : Bool :=
  !(ping t.run).1 &&
    (match s.failSince with
      | none => false
      | some fs => decide (cfg.timeoutSec ≤ elapsedSeconds t.now fs))

/-- Tick number `i` of the sequence exists and crosses the timeout, the loop body having been
applied to every tick before it from the initial state. -/
def crossesAt (cfg : Config) (ticks : List Tick) (i : Nat) : Bool :=
  match ticks[i]? with
  | none => false
  | some t => crossesTimeout cfg (stateBefore cfg State.init ticks i) t

/-- Ticks at the given whole seconds whose `ping` fails without a deadline error. -/
def failingAt (secs : List Int) : List Tick :=
  secs.map fun n => ⟨n * 1000000000, RunResult.otherError, false⟩

/-- A tick at the given whole second whose `ping` succeeds. -/
def okAt (sec : Int) : Tick := ⟨sec * 1000000000, RunResult.success, false⟩

/-- Ticks number `0` to `n - 1` of a streak: all failing, `intervalSec` seconds apart, the
first at clock reading `t0`. -/
def spacedFailing (t0 intervalSec : Int) (n : Nat) : List Tick :=
  (List.range n).map fun (j : Nat) =>
    (⟨t0 + (j : Int) * intervalSec * 1000000000, RunResult.otherError, false⟩ : Tick)

/-- The elapsed seconds a progress line reports. -/
def Event.elapsed? : Event → Option Int
  | Event.progress e _ => some e
  | _ => none

/-- The elapsed seconds of the progress lines of a run, in order. -/
def progressElapsed (rs : List StepResult) : List Int :=
  (rs.map StepResult.events).flatten.filterMap Event.elapsed?

/-- An environment in which only `TARGET_TIMEOUT` is set, to `"0"`. -/
def envTimeoutZero : String → String :=
  fun key => if key = "TARGET_TIMEOUT" then "0" else ""

/-- Three ticks two seconds apart whose `ping` ends on the deadline or fails, at a time when
`systemctl poweroff` would return an error. -/
def deadlineTicks : List Tick :=
  [⟨0, RunResult.deadlineExceeded, true⟩, ⟨2000000000, RunResult.otherError, true⟩,
    ⟨4000000000, RunResult.deadlineExceeded, true⟩, ⟨6000000000, RunResult.otherError, true⟩]

/-- An environment in which only `TARGET_INTERVAL` is set, to `"10"`. -/
def envIntervalTen : String → String :=
  fun key => if key = "TARGET_INTERVAL" then "10" else ""

/-- The event is one of the two lines `main` writes before `os.Exit(1)`. -/
def Event.isAbortLine : Event → Bool
  | Event.invalidTimeValues => true
  | Event.addressEmpty => true
  | _ => false

/-- Quotient of `a` by `b` rounded up, for a positive `b`. -/
def ceilDiv (a b : Int) : Int := (a + b - 1) / b

/-- Three failing ticks for a run with `intervalSec = 16777216`: the second is read
16777216999999999 ns after the first, the third five seconds later. -/
def roundingTicks : List Tick :=
  [⟨5000000000, RunResult.otherError, false⟩,
    ⟨16777221999999999, RunResult.otherError, false⟩,
    ⟨16777226999999999, RunResult.otherError, false⟩]

/-! ## The loop body -/

theorem tickStep_ok (cfg : Config) (s : State) (t : Tick) (h : ¬ t.failed) :
    tickStep cfg s t =
      ⟨⟨none, 0⟩, (if (ping t.run).2 then [Event.pingErr] else []) ++ [Event.pingOK], false⟩ := by
  have h1 : (ping t.run).1 = true := by simpa [Tick.failed] using h
  simp [tickStep, h1]

theorem tickStep_start (cfg : Config) (s : State) (t : Tick) (h : t.failed)
    (hs : s.failSince = none) :
    tickStep cfg s t =
      ⟨⟨some t.now, 0⟩, (if (ping t.run).2 then [Event.pingErr] else []) ++ [Event.timerStarted],
        false⟩ := by
  have h1 : (ping t.run).1 = false := h
  simp [tickStep, h1, hs]

theorem tickStep_below (cfg : Config) (s : State) (t : Tick) (fs : Int) (h : t.failed)
    (hs : s.failSince = some fs) (hlt : elapsedSeconds t.now fs < cfg.timeoutSec) :
    tickStep cfg s t =
      if (s.logSkipped + 1) * cfg.logEverySec ≤ elapsedSeconds t.now fs then
        ⟨⟨some fs, s.logSkipped + 1⟩,
          (if (ping t.run).2 then [Event.pingErr] else []) ++
            [Event.progress (elapsedSeconds t.now fs) cfg.timeoutSec], false⟩
      else
        ⟨⟨some fs, s.logSkipped⟩, (if (ping t.run).2 then [Event.pingErr] else []), false⟩ := by
  have h1 : (ping t.run).1 = false := h
  have h2 : ¬ cfg.timeoutSec ≤ elapsedSeconds t.now fs := not_le.mpr hlt
  by_cases h3 : (s.logSkipped + 1) * cfg.logEverySec ≤ elapsedSeconds t.now fs <;>
    simp [tickStep, h1, hs, h2, h3]

theorem tickStep_cross (cfg : Config) (s : State) (t : Tick) (fs : Int) (h : t.failed)
    (hs : s.failSince = some fs) (hge : cfg.timeoutSec ≤ elapsedSeconds t.now fs) :
    tickStep cfg s t =
      ⟨⟨some fs, s.logSkipped + 1⟩,
        (if (ping t.run).2 then [Event.pingErr] else []) ++
          [Event.progress (elapsedSeconds t.now fs) cfg.timeoutSec] ++
          [Event.poweroffTriggered, Event.systemctlPoweroff] ++
          (if t.poweroffFails then [Event.poweroffErr] else []), true⟩ := by
  have h1 : (ping t.run).1 = false := h
  simp [tickStep, h1, hs, hge, poweroff]


theorem pingErrLog_no_poweroff (t : Tick) : Event.systemctlPoweroff ∉ pingErrLog t := by
  unfold pingErrLog; split <;> simp

theorem pingErrLog_no_progress (t : Tick) (e : Event) (he : e ∈ pingErrLog t) :
    e.isProgress = false := by
  unfold pingErrLog at he
  split at he <;> simp at he
  subst he; rfl

/-- An iteration returns exactly when it calls `poweroff`, and exactly when the failure
streak in progress has lasted `timeoutSec` seconds as line 79 counts them. -/
theorem tickStep_returned_iff (cfg : Config) (s : State) (t : Tick) :
    ((tickStep cfg s t).returned = true ↔ invokesPoweroff (tickStep cfg s t)) ∧
    ((tickStep cfg s t).returned = true ↔
      (t.failed ∧ ∃ fs, s.failSince = some fs ∧ cfg.timeoutSec ≤ elapsedSeconds t.now fs)) := by
  by_cases hf : t.failed
  · cases hs : s.failSince with
    | none =>
      rw [tickStep_start cfg s t hf hs]
      simp [invokesPoweroff]
    | some fs =>
      by_cases hge : cfg.timeoutSec ≤ elapsedSeconds t.now fs
      · rw [tickStep_cross cfg s t fs hf hs hge]
        simp [invokesPoweroff, hf, hge]
      · rw [tickStep_below cfg s t fs hf hs (not_le.mp hge)]
        have hp := pingErrLog_no_poweroff t
        unfold pingErrLog at hp
        split <;> simp [invokesPoweroff, hge, hp]
  · rw [tickStep_ok cfg s t hf]
    simp [invokesPoweroff, hf]

/-- How an iteration changes `failSince`. -/
theorem tickStep_failSince (cfg : Config) (s : State) (t : Tick) :
    (tickStep cfg s t).state.failSince =
      if (ping t.run).1 then none
      else match s.failSince with
        | none => some t.now
        | some fs => some fs := by
  by_cases hf : t.failed
  · have h1 : (ping t.run).1 = false := hf
    cases hs : s.failSince with
    | none => rw [tickStep_start cfg s t hf hs]; simp [h1]
    | some fs =>
      by_cases hge : cfg.timeoutSec ≤ elapsedSeconds t.now fs
      · rw [tickStep_cross cfg s t fs hf hs hge]; simp [h1]
      · rw [tickStep_below cfg s t fs hf hs (not_le.mp hge)]
        split <;> simp [h1]
  · have h1 : (ping t.run).1 = true := by simpa [Tick.failed] using hf
    rw [tickStep_ok cfg s t hf]; simp [h1]

/-! ## The fold of the loop body and the trace of the loop -/

theorem stateAfter_append (cfg : Config) (s : State) (ts : List Tick) (t : Tick) :
    stateAfter cfg s (ts ++ [t]) = (tickStep cfg (stateAfter cfg s ts) t).state := by
  simp [stateAfter, List.foldl_append]

theorem stateBefore_zero (cfg : Config) (s : State) (ts : List Tick) :
    stateBefore cfg s ts 0 = s := by
  simp [stateBefore, stateAfter]

theorem stateBefore_cons_succ (cfg : Config) (s : State) (t : Tick) (ts : List Tick) (i : Nat) :
    stateBefore cfg s (t :: ts) (i + 1) = stateBefore cfg (tickStep cfg s t).state ts i := by
  simp [stateBefore, stateAfter]

theorem stateBefore_succ (cfg : Config) (s : State) (ts : List Tick) (i : Nat) (t : Tick)
    (ht : ts[i]? = some t) :
    stateBefore cfg s ts (i + 1) = (tickStep cfg (stateBefore cfg s ts i) t).state := by
  induction ts generalizing s i with
  | nil => simp at ht
  | cons a ts ih =>
    cases i with
    | zero =>
      simp at ht
      subst ht
      simp [stateBefore, stateAfter]
    | succ i =>
      simp at ht
      rw [stateBefore_cons_succ, stateBefore_cons_succ, ih _ _ ht]

/-- Iteration `i` of the loop, when it is executed, is the loop body applied to tick `i` in
the state left by the ticks before it, none of which returned. -/
theorem monitorLoop_get (cfg : Config) (s : State) (ts : List Tick) (i : Nat) (r : StepResult)
    (h : (monitorLoop cfg s ts)[i]? = some r) :
    ∃ t, ts[i]? = some t ∧ r = tickStep cfg (stateBefore cfg s ts i) t ∧
      ∀ k tk, k < i → ts[k]? = some tk →
        (tickStep cfg (stateBefore cfg s ts k) tk).returned = false := by
  induction ts generalizing s i with
  | nil => simp [monitorLoop] at h
  | cons a ts ih =>
    cases i with
    | zero =>
      simp [monitorLoop] at h
      exact ⟨a, by simp, by rw [stateBefore_zero]; exact h.symm, by intro k tk hk; omega⟩
    | succ i =>
      simp only [monitorLoop, List.getElem?_cons_succ] at h
      by_cases hr : (tickStep cfg s a).returned = true
      · simp [hr] at h
      · simp only [hr] at h
        obtain ⟨t, ht, hrt, hno⟩ := ih _ _ h
        refine ⟨t, by simpa using ht, by rw [stateBefore_cons_succ]; exact hrt, ?_⟩
        intro k tk hk hkt
        cases k with
        | zero =>
          simp at hkt
          subst hkt
          rw [stateBefore_zero]
          simpa using hr
        | succ k =>
          rw [stateBefore_cons_succ]
          exact hno k tk (by omega) (by simpa using hkt)

/-- Converse of `monitorLoop_get`: a tick that no returning iteration comes before is
executed. -/
theorem monitorLoop_get_of (cfg : Config) (s : State) (ts : List Tick) (i : Nat) (t : Tick)
    (ht : ts[i]? = some t)
    (hno : ∀ k tk, k < i → ts[k]? = some tk →
        (tickStep cfg (stateBefore cfg s ts k) tk).returned = false) :
    (monitorLoop cfg s ts)[i]? = some (tickStep cfg (stateBefore cfg s ts i) t) := by
  induction ts generalizing s i with
  | nil => simp at ht
  | cons a ts ih =>
    cases i with
    | zero =>
      simp at ht
      subst ht
      simp [monitorLoop, stateBefore_zero]
    | succ i =>
      have h0 := hno 0 a (by omega) (by simp)
      rw [stateBefore_zero] at h0
      simp only [monitorLoop, List.getElem?_cons_succ, h0]
      rw [stateBefore_cons_succ]
      simp only [Bool.false_eq_true, if_false]
      apply ih _ _ (by simpa using ht)
      intro k tk hk hkt
      have := hno (k + 1) tk (by omega) (by simpa using hkt)
      rwa [stateBefore_cons_succ] at this

/-- Nothing is executed after an iteration that returns. -/
theorem monitorLoop_length_of_returned (cfg : Config) (s : State) (ts : List Tick) (i : Nat)
    (r : StepResult) (h : (monitorLoop cfg s ts)[i]? = some r) (hr : r.returned = true) :
    (monitorLoop cfg s ts).length = i + 1 := by
  induction ts generalizing s i with
  | nil => simp [monitorLoop] at h
  | cons a ts ih =>
    cases i with
    | zero =>
      simp [monitorLoop] at h
      subst h
      simp [monitorLoop, hr]
    | succ i =>
      simp only [monitorLoop, List.getElem?_cons_succ] at h
      by_cases hr0 : (tickStep cfg s a).returned = true
      · simp [hr0] at h
      · simp only [hr0] at h
        simp only [monitorLoop, hr0, List.length_cons]
        simp only [Bool.false_eq_true, if_false]
        rw [ih _ _ h]

theorem monitorLoop_length_le (cfg : Config) (s : State) (ts : List Tick) :
    (monitorLoop cfg s ts).length ≤ ts.length := by
  induction ts generalizing s with
  | nil => simp [monitorLoop]
  | cons a ts ih =>
    simp only [monitorLoop, List.length_cons]
    split
    · simp
    · have := ih (tickStep cfg s a).state
      omega

/-- Where a present `failSince` comes from: either it was already there when the loop started
and every tick so far failed, or some earlier failing tick found it absent and set it to its
clock reading, and every tick since failed. -/
theorem failSince_origin (cfg : Config) (s : State) (ts : List Tick) (i : Nat) (fs : Int)
    (hi : i ≤ ts.length) (h : (stateBefore cfg s ts i).failSince = some fs) :
    (s.failSince = some fs ∧ ∀ k tk, k < i → ts[k]? = some tk → tk.failed) ∨
    (∃ j tj, j < i ∧ ts[j]? = some tj ∧ tj.now = fs ∧ tj.failed ∧
      (stateBefore cfg s ts j).failSince = none ∧
      ∀ k tk, j ≤ k → k < i → ts[k]? = some tk → tk.failed) := by
  induction i generalizing fs with
  | zero =>
    left
    rw [stateBefore_zero] at h
    exact ⟨h, by intro k tk hk; omega⟩
  | succ i ih =>
    have hlt : i < ts.length := by omega
    have ht : ts[i]? = some ts[i] := List.getElem?_eq_getElem hlt
    rw [stateBefore_succ cfg s ts i _ ht, tickStep_failSince] at h
    by_cases hok : (ping ts[i].run).1 = true
    · simp [hok] at h
    · have hfail : ts[i].failed := by simpa [Tick.failed] using hok
      simp only [hok, Bool.false_eq_true, if_false] at h
      cases hprev : (stateBefore cfg s ts i).failSince with
      | none =>
        rw [hprev] at h
        simp only [Option.some.injEq] at h
        right
        refine ⟨i, ts[i], by omega, ht, h, hfail, hprev, ?_⟩
        intro k tk hjk hki hk
        have : k = i := by omega
        subst this
        rw [ht] at hk
        simp only [Option.some.injEq] at hk
        subst hk
        exact hfail
      | some f =>
        rw [hprev] at h
        simp only [Option.some.injEq] at h
        subst h
        rcases ih f (by omega) hprev with ⟨h0, hall⟩ | ⟨j, tj, hj, htj, hnow, hfj, hnone, hall⟩
        · left
          refine ⟨h0, ?_⟩
          intro k tk hk hkt
          by_cases hki : k = i
          · subst hki
            rw [ht] at hkt
            simp only [Option.some.injEq] at hkt
            subst hkt
            exact hfail
          · exact hall k tk (by omega) hkt
        · right
          refine ⟨j, tj, by omega, htj, hnow, hfj, hnone, ?_⟩
          intro k tk hjk hk hkt
          by_cases hki : k = i
          · subst hki
            rw [ht] at hkt
            simp only [Option.some.injEq] at hkt
            subst hkt
            exact hfail
          · exact hall k tk hjk (by omega) hkt

theorem monitor_eq_some (addr : String) (cfg : Config) (ticks : List Tick)
    (rs : List StepResult) (h : monitor addr cfg ticks = some rs) :
    rs = monitorLoop cfg State.init ticks := by
  unfold monitor at h
  split at h
  · simp at h
  · simpa using h.symm

/-! ## Claims -/

/-- Whenever `monitor` calls `poweroff` in iteration `i`, the probe of tick `i` failed, an
earlier iteration `j` found `failSince` absent and set it to its own clock reading (it wrote
the "timer started" line), every probe from tick `j` to tick `i` failed, and the seconds that
line 79 computes from tick `j` to tick `i` are at least `timeoutSec`.  So `poweroff` is never
called on a tick whose probe succeeded, and never in a run in which every probe succeeds.
This holds for every configuration and every sequence of clock readings. -/
theorem poweroff_only_after_timeout (addr : String) (cfg : Config) (ticks : List Tick)
    (rs : List StepResult) (i : Nat) (r : StepResult)
    (hrun : monitor addr cfg ticks = some rs) (hi : rs[i]? = some r)
    (hp : invokesPoweroff r) :
    ∃ j tj rj ti, j < i ∧ ticks[j]? = some tj ∧ rs[j]? = some rj ∧ ticks[i]? = some ti ∧
      Event.timerStarted ∈ rj.events ∧ rj.state.failSince = some tj.now ∧
      (stateBefore cfg State.init ticks i).failSince = some tj.now ∧
      (∀ k tk, j ≤ k → k ≤ i → ticks[k]? = some tk → tk.failed) ∧
      ti.failed ∧ cfg.timeoutSec ≤ elapsedSeconds ti.now tj.now := by
  have hrs := monitor_eq_some addr cfg ticks rs hrun
  subst hrs
  obtain ⟨ti, hti, hr, hno⟩ := monitorLoop_get cfg State.init ticks i r hi
  subst hr
  have hret := (tickStep_returned_iff cfg (stateBefore cfg State.init ticks i) ti).1.mpr hp
  obtain ⟨hfi, fs, hfs, hge⟩ :=
    (tickStep_returned_iff cfg (stateBefore cfg State.init ticks i) ti).2.mp hret
  have hilt : i < ticks.length := by
    by_contra hcon
    rw [List.getElem?_eq_none (by omega)] at hti
    simp at hti
  rcases failSince_origin cfg State.init ticks i fs (by omega) hfs with
    ⟨h0, _⟩ | ⟨j, tj, hj, htj, hnow, hfj, hnone, hall⟩
  · simp [State.init] at h0
  · have hrj : (monitorLoop cfg State.init ticks)[j]? =
        some (tickStep cfg (stateBefore cfg State.init ticks j) tj) :=
      monitorLoop_get_of cfg State.init ticks j tj htj
        (fun k tk hk hkt => hno k tk (by omega) hkt)
    refine ⟨j, tj, _, ti, hj, htj, hrj, hti, ?_, ?_, ?_, ?_, hfi, ?_⟩
    · rw [tickStep_start cfg _ tj hfj hnone]; simp
    · rw [tickStep_start cfg _ tj hfj hnone]
    · rw [hfs, hnow]
    · intro k tk hjk hki hkt
      by_cases hk : k = i
      · subst hk
        rw [hti] at hkt
        simp only [Option.some.injEq] at hkt
        subst hkt
        exact hfi
      · exact hall k tk hjk (by omega) hkt
    · rw [hnow]; exact hge

theorem tickStep_count_poweroff (cfg : Config) (s : State) (t : Tick) :
    (tickStep cfg s t).events.count Event.systemctlPoweroff =
      if (tickStep cfg s t).returned = true then 1 else 0 := by
  by_cases hf : t.failed
  · cases hs : s.failSince with
    | none =>
      rw [tickStep_start cfg s t hf hs]
      cases (ping t.run).2 <;> simp
    | some fs =>
      by_cases hge : cfg.timeoutSec ≤ elapsedSeconds t.now fs
      · rw [tickStep_cross cfg s t fs hf hs hge]
        cases (ping t.run).2 <;> cases t.poweroffFails <;>
          simp [List.count_cons, List.count_nil]
      · rw [tickStep_below cfg s t fs hf hs (not_le.mp hge)]
        split <;> cases (ping t.run).2 <;> simp [List.count_cons, List.count_nil]
  · rw [tickStep_ok cfg s t hf]
    cases (ping t.run).2 <;> simp [List.count_cons, List.count_nil]

theorem monitorLoop_count_poweroff (cfg : Config) (s : State) (ts : List Tick) :
    ((monitorLoop cfg s ts).map StepResult.events).flatten.count Event.systemctlPoweroff =
      if (monitorLoop cfg s ts).any StepResult.returned = true then 1 else 0 := by
  induction ts generalizing s with
  | nil => simp [monitorLoop]
  | cons a ts ih =>
    simp only [monitorLoop, List.map_cons, List.flatten_cons, List.count_append,
      List.any_cons, tickStep_count_poweroff]
    by_cases hr : (tickStep cfg s a).returned = true
    · simp [hr]
    · simp only [hr, Bool.false_eq_true, if_false, Bool.false_or, zero_add]
      exact ih _

theorem crossesTimeout_eq_returned (cfg : Config) (s : State) (t : Tick) :
    crossesTimeout cfg s t = (tickStep cfg s t).returned := by
  have h := (tickStep_returned_iff cfg s t).2
  by_cases hc : crossesTimeout cfg s t = true
  · rw [hc]
    symm
    apply h.mpr
    unfold crossesTimeout at hc
    simp only [Bool.and_eq_true, Bool.not_eq_true'] at hc
    refine ⟨hc.1, ?_⟩
    cases hs : s.failSince with
    | none => rw [hs] at hc; simp at hc
    | some fs => rw [hs] at hc; exact ⟨fs, rfl, by simpa using hc.2⟩
  · have hr : ¬ (tickStep cfg s t).returned = true := by
      intro hr
      apply hc
      obtain ⟨hf, fs, hfs, hge⟩ := h.mp hr
      have h1 : (ping t.run).1 = false := hf
      simp [crossesTimeout, h1, hfs, hge]
    simp only [Bool.not_eq_true] at hc hr
    rw [hc, hr]

theorem monitorLog_count_poweroff (addr : String) (cfg : Config) (ticks : List Tick) :
    (monitorLog addr cfg ticks).count Event.systemctlPoweroff =
      match monitor addr cfg ticks with
      | none => 0
      | some rs => if rs.any StepResult.returned = true then 1 else 0 := by
  unfold monitorLog
  cases h : monitor addr cfg ticks with
  | none => simp
  | some rs =>
    have hrs := monitor_eq_some addr cfg ticks rs h
    subst hrs
    simp only [List.count_cons, monitorLoop_count_poweroff]
    simp

/-- C2. `monitor` runs the `systemctl poweroff` command at most once.  If some failing tick
inside a failure streak has an `elapsed`, as line 79 computes it, of `timeoutSec` or more, the
command is run exactly once, in the iteration of the first such tick; that iteration returns
and is the last one executed, whatever the outcome of the command. -/
theorem poweroff_exactly_once (addr : String) (cfg : Config) (ticks : List Tick) :
    (monitorLog addr cfg ticks).count Event.systemctlPoweroff ≤ 1 ∧
    ∀ rs i, monitor addr cfg ticks = some rs → crossesAt cfg ticks i = true →
      (∀ k, k < i → crossesAt cfg ticks k = false) →
      (monitorLog addr cfg ticks).count Event.systemctlPoweroff = 1 ∧
      rs.length = i + 1 ∧
      (∃ r, rs[i]? = some r ∧ invokesPoweroff r ∧ r.returned = true) ∧
      ∀ k rk, k < i → rs[k]? = some rk → ¬ invokesPoweroff rk := by
  constructor
  · rw [monitorLog_count_poweroff]
    cases monitor addr cfg ticks with
    | none => simp
    | some rs => simp only []; split <;> omega
  · intro rs i hrun hcross hfirst
    have hrs := monitor_eq_some addr cfg ticks rs hrun
    obtain ⟨ti, hti, hci⟩ : ∃ ti, ticks[i]? = some ti ∧
        crossesTimeout cfg (stateBefore cfg State.init ticks i) ti = true := by
      unfold crossesAt at hcross
      cases h : ticks[i]? with
      | none => rw [h] at hcross; simp at hcross
      | some t => rw [h] at hcross; exact ⟨t, rfl, hcross⟩
    have hno : ∀ k tk, k < i → ticks[k]? = some tk →
        (tickStep cfg (stateBefore cfg State.init ticks k) tk).returned = false := by
      intro k tk hk hkt
      have := hfirst k hk
      unfold crossesAt at this
      rw [hkt] at this
      rw [← crossesTimeout_eq_returned]
      exact this
    have hget := monitorLoop_get_of cfg State.init ticks i ti hti hno
    rw [crossesTimeout_eq_returned] at hci
    rw [← hrs] at hget
    have hlen : rs.length = i + 1 := by
      rw [hrs]
      rw [hrs] at hget
      exact monitorLoop_length_of_returned cfg State.init ticks i _ hget hci
    refine ⟨?_, hlen, ⟨_, hget, (tickStep_returned_iff cfg _ ti).1.mp hci, hci⟩, ?_⟩
    · rw [monitorLog_count_poweroff, hrun]
      have hany : rs.any StepResult.returned = true := by
        rw [List.any_eq_true]
        exact ⟨_, List.getElem?_mem hget, hci⟩
      simp [hany]
    · intro k rk hk hrk hinv
      rw [hrs] at hrk
      obtain ⟨tk, htk, hrkeq, _⟩ := monitorLoop_get cfg State.init ticks k rk hrk
      subst hrkeq
      have h1 := hno k tk hk htk
      have h2 := (tickStep_returned_iff cfg (stateBefore cfg State.init ticks k) tk).1.mpr hinv
      rw [h1] at h2
      exact Bool.false_ne_true h2

/-- C3. Feed any sequence of ticks to the loop body from the initial state: afterwards
`failSince` is absent exactly when no tick has been processed or the probe of the most recent
tick succeeded. -/
theorem failSince_absent_iff_last_ok (cfg : Config) (ts : List Tick) :
    (stateAfter cfg State.init ts).failSince = none ↔
      (ts = [] ∨ ∃ t, ts.getLast? = some t ∧ (ping t.run).1 = true) := by
  rcases List.eq_nil_or_concat ts with h | ⟨ts0, t, h⟩
  · subst h
    simp [stateAfter, State.init]
  · subst h
    rw [List.concat_eq_append, stateAfter_append, tickStep_failSince]
    by_cases hok : (ping t.run).1 = true
    · simp [hok]
    · simp only [hok, Bool.false_eq_true, if_false]
      cases (stateAfter cfg State.init ts0).failSince <;> simp [hok]

/-- C4. In any state (any `failSince`, any `logSkipped`) an iteration whose `ping` succeeds
leaves `failSince` absent and `logSkipped = 0`, writes the OK line and nothing else, does not
call `poweroff` and does not return. -/
theorem success_tick_resets (cfg : Config) (s : State) (now : Int) (pf : Bool) :
    (tickStep cfg s ⟨now, RunResult.success, pf⟩).state = ⟨none, 0⟩ ∧
    (tickStep cfg s ⟨now, RunResult.success, pf⟩).events = [Event.pingOK] ∧
    ¬ invokesPoweroff (tickStep cfg s ⟨now, RunResult.success, pf⟩) ∧
    (tickStep cfg s ⟨now, RunResult.success, pf⟩).returned = false := by
  simp [tickStep, ping, invokesPoweroff]

theorem tickStep_failSince_none (cfg : Config) (s : State) (t : Tick)
    (h : (tickStep cfg s t).state.failSince = none) :
    (tickStep cfg s t).state.logSkipped = 0 := by
  by_cases hf : t.failed
  · rw [tickStep_failSince] at h
    have h1 : (ping t.run).1 = false := hf
    rw [h1] at h
    cases hs : s.failSince <;> simp [hs] at h
  · rw [tickStep_ok cfg s t hf]

/-- C5, amended. In every state `monitor` is in, the initial one or the one an executed
iteration leaves, an absent `failSince` comes with `logSkipped = 0`. -/
theorem failSince_absent_logSkipped_zero (addr : String) (cfg : Config) (ticks : List Tick)
    (rs : List StepResult) (s : State) (hrun : monitor addr cfg ticks = some rs)
    (hs : s = State.init ∨ ∃ r, r ∈ rs ∧ s = r.state) (h : s.failSince = none) :
    s.logSkipped = 0 := by
  rcases hs with h0 | ⟨r, hr, hsr⟩
  · subst h0; rfl
  · subst hsr
    have hrs := monitor_eq_some addr cfg ticks rs hrun
    subst hrs
    obtain ⟨i, hi⟩ := List.getElem?_of_mem hr
    obtain ⟨t, _, hrt, _⟩ := monitorLoop_get cfg State.init ticks i r hi
    subst hrt
    exact tickStep_failSince_none cfg _ t h

/-- C7. In every iteration in which `monitor` calls `poweroff`, the events are: the optional
ping diagnostic, then one progress line with the `elapsed` of line 79 and `timeoutSec`, then
the two steps of `poweroff`, then the optional error line; and `logSkipped` grows by one.  No
condition on the milestone `(logSkipped + 1) * logEverySec` is involved. -/
theorem final_progress_line (addr : String) (cfg : Config) (ticks : List Tick)
    (rs : List StepResult) (i : Nat) (r : StepResult)
    (hrun : monitor addr cfg ticks = some rs) (hi : rs[i]? = some r)
    (hp : invokesPoweroff r) :
    ∃ ti fs, ticks[i]? = some ti ∧
      (stateBefore cfg State.init ticks i).failSince = some fs ∧
      r.events = pingErrLog ti ++
        [Event.progress (elapsedSeconds ti.now fs) cfg.timeoutSec,
          Event.poweroffTriggered, Event.systemctlPoweroff] ++
        (if ti.poweroffFails then [Event.poweroffErr] else []) ∧
      r.events.filter Event.isProgress =
        [Event.progress (elapsedSeconds ti.now fs) cfg.timeoutSec] ∧
      r.state.logSkipped = (stateBefore cfg State.init ticks i).logSkipped + 1 := by
  have hrs := monitor_eq_some addr cfg ticks rs hrun
  subst hrs
  obtain ⟨ti, hti, hr, _⟩ := monitorLoop_get cfg State.init ticks i r hi
  subst hr
  have hret := (tickStep_returned_iff cfg (stateBefore cfg State.init ticks i) ti).1.mpr hp
  obtain ⟨hfi, fs, hfs, hge⟩ :=
    (tickStep_returned_iff cfg (stateBefore cfg State.init ticks i) ti).2.mp hret
  refine ⟨ti, fs, hti, hfs, ?_, ?_, ?_⟩
  · rw [tickStep_cross cfg _ ti fs hfi hfs hge]
    simp [pingErrLog]
  · rw [tickStep_cross cfg _ ti fs hfi hfs hge]
    cases (ping ti.run).2 <;> cases ti.poweroffFails <;> simp [List.filter, Event.isProgress]
  · rw [tickStep_cross cfg _ ti fs hfi hfs hge]

/-! ## A failure streak with evenly spaced ticks -/

theorem ediv_step (e I L : Int) (hI : 0 < I) (hIL : I ≤ L) :
    (e + I) / L = if (e / L + 1) * L ≤ e + I then e / L + 1 else e / L := by
  have hL : 0 < L := lt_of_lt_of_le hI hIL
  have h1 : e / L * L ≤ e := Int.ediv_mul_le e (ne_of_gt hL)
  have h2 : e < (e / L + 1) * L := Int.lt_ediv_add_one_mul_self e hL
  split
  · rename_i h
    apply le_antisymm
    · have : (e + I) / L < e / L + 1 + 1 := by
        rw [Int.ediv_lt_iff_lt_mul hL]
        nlinarith
      omega
    · rw [Int.le_ediv_iff_mul_le hL]; exact h
  · rename_i h
    apply le_antisymm
    · have : (e + I) / L < e / L + 1 := by
        rw [Int.ediv_lt_iff_lt_mul hL]
        omega
      omega
    · rw [Int.le_ediv_iff_mul_le hL]; omega

theorem milestone_iff_dvd (e I L : Int) (hI : 0 < I) (hdL : I ∣ L) (hL : 0 < L)
    (hde : I ∣ e) : (e / L + 1) * L ≤ e + I ↔ L ∣ e + I := by
  have h1 : e / L * L ≤ e := Int.ediv_mul_le e (ne_of_gt hL)
  have h2 : e < (e / L + 1) * L := Int.lt_ediv_add_one_mul_self e hL
  constructor
  · intro h
    have hd : I ∣ (e / L + 1) * L - e := Dvd.dvd.sub (Dvd.dvd.mul_left hdL _) hde
    have hle : I ≤ (e / L + 1) * L - e := Int.le_of_dvd (by omega) hd
    have : e + I = (e / L + 1) * L := by omega
    rw [this]
    exact Dvd.intro_left _ rfl
  · rintro ⟨c, hc⟩
    have hIL : I ≤ L := Int.le_of_dvd hL hdL
    have hq : e / L = c - 1 := by
      apply le_antisymm
      · have : e / L < c := by
          rw [Int.ediv_lt_iff_lt_mul hL]
          nlinarith
        omega
      · rw [Int.le_ediv_iff_mul_le hL]
        nlinarith
    rw [hq, hc]
    ring_nf
    exact le_refl _

theorem gridExp_le (fuel x : Nat) : gridExp fuel x ≤ fuel := by
  induction fuel generalizing x with
  | zero => simp [gridExp]
  | succ fuel ih =>
    unfold gridExp
    split
    · omega
    · have := ih (x / 2)
      omega

/-- A quotient that is a whole number is exact in `float64`. -/
theorem f64Quot_mul (n b : Nat) (hb : 0 < b) : f64Quot (n * b) b = n * 2 ^ 82 := by
  unfold f64Quot
  simp only []
  generalize ht : gridExp 82 (n * b * 2 ^ 82 / b) = t
  have hle : t ≤ 82 := by rw [← ht]; exact gridExp_le 82 _
  have hpow : (2 : Nat) ^ 82 = 2 ^ (82 - t) * 2 ^ t := by
    rw [← pow_add]; congr 1; omega
  have hu : 0 < b * 2 ^ t := Nat.mul_pos hb (by positivity)
  have hA : n * b * 2 ^ 82 = n * 2 ^ (82 - t) * (b * 2 ^ t) := by
    rw [hpow]; ring
  have hr : n * b * 2 ^ 82 % (b * 2 ^ t) = 0 := by
    rw [hA]; exact Nat.mul_mod_left _ _
  have hn : n * b * 2 ^ 82 / (b * 2 ^ t) = n * 2 ^ (82 - t) := by
    rw [hA]; exact Nat.mul_div_cancel _ hu
  rw [hr, hn, if_pos (by omega), hpow]
  ring

/-- A duration of whole seconds has exactly that many seconds. -/
theorem durationSeconds_whole (n : Nat) :
    durationSeconds (n * 1000000000) = n * 2 ^ 82 := by
  unfold durationSeconds
  have h1 : n * 1000000000 / 1000000000 = n := Nat.mul_div_cancel _ (by norm_num)
  have h2 : n * 1000000000 % 1000000000 = 0 := Nat.mul_mod_left _ _
  have q1 : f64Quot n 1 = n * 2 ^ 82 := by
    have := f64Quot_mul n 1 (by norm_num)
    rwa [Nat.mul_one] at this
  have q0 : ∀ b, 0 < b → f64Quot 0 b = 0 := by
    intro b hb
    have := f64Quot_mul 0 b hb
    simpa using this
  rw [h1, h2, q1, q0 1 (by norm_num)]
  have q3 : f64Quot 1000000000 1 = 1000000000 * 2 ^ 82 := by
    have := f64Quot_mul 1000000000 1 (by norm_num)
    rwa [Nat.mul_one] at this
  rw [q3, q0 _ (by positivity), Nat.add_zero]
  exact f64Quot_mul n (2 ^ 82) (by positivity)

theorem elapsedSeconds_spaced (t0 I : Int) (j : Nat) :
    elapsedSeconds (t0 + (j : Int) * I * 1000000000) t0 = (j : Int) * I := by
  unfold elapsedSeconds
  simp only []
  rw [add_sub_cancel_left]
  have habs : ((j : Int) * I * 1000000000).natAbs = (j * I.natAbs) * 1000000000 := by
    rw [Int.natAbs_mul, Int.natAbs_mul]
    simp
  rw [habs, durationSeconds_whole, Nat.mul_div_cancel _ (by positivity)]
  push_cast
  rcases le_or_lt 0 I with hI | hI
  · have h0 : ¬ ((j : Int) * I * 1000000000 < 0) := by
      have : 0 ≤ (j : Int) * I := mul_nonneg (by omega) hI
      omega
    rw [if_neg h0, abs_of_nonneg hI]
  · rcases Nat.eq_zero_or_pos j with hj | hj
    · subst hj; simp
    · have h0 : (j : Int) * I * 1000000000 < 0 := by
        have : (j : Int) * I < 0 := mul_neg_of_pos_of_neg (by exact_mod_cast hj) hI
        omega
      rw [if_pos h0, abs_of_neg hI]
      ring

theorem gridExp_le_of_lt (fuel x k : Nat) (h : x < 9007199254740992 * 2 ^ k) :
    gridExp fuel x ≤ k := by
  induction fuel generalizing x k with
  | zero => simp [gridExp]
  | succ fuel ih =>
    unfold gridExp
    split
    · omega
    · rename_i hx
      cases k with
      | zero => simp at h; omega
      | succ k =>
        have h2 : x / 2 < 9007199254740992 * 2 ^ k := by
          rw [pow_succ] at h
          omega
        have := ih (x / 2) k h2
        omega

/-- The rounded quotient is at most half a spacing above the quotient. -/
theorem f64Quot_le (a b : Nat) :
    f64Quot a b * (2 * b) ≤ 2 * (a * 2 ^ 82) + b * 2 ^ gridExp 82 (a * 2 ^ 82 / b) := by
  unfold f64Quot
  simp only []
  generalize (2 : Nat) ^ gridExp 82 (a * 2 ^ 82 / b) = u
  generalize a * 2 ^ 82 = A
  have hdiv : A / (b * u) * (b * u) + A % (b * u) = A := Nat.div_add_mod' A (b * u)
  generalize A / (b * u) = n at hdiv ⊢
  generalize A % (b * u) = r at hdiv ⊢
  split
  · nlinarith
  · split
    · nlinarith
    · split
      · nlinarith
      · nlinarith

/-- The rounded quotient is not below a multiple of the spacing that the quotient reaches. -/
theorem f64Quot_ge (a b k : Nat) (hb : 0 < b)
    (hk : k * 2 ^ gridExp 82 (a * 2 ^ 82 / b) * b ≤ a * 2 ^ 82) :
    k * 2 ^ gridExp 82 (a * 2 ^ 82 / b) ≤ f64Quot a b := by
  unfold f64Quot
  simp only []
  have hu : 0 < (2 : Nat) ^ gridExp 82 (a * 2 ^ 82 / b) := by positivity
  generalize (2 : Nat) ^ gridExp 82 (a * 2 ^ 82 / b) = u at hk hu ⊢
  generalize a * 2 ^ 82 = A at hk ⊢
  have hn : k ≤ A / (b * u) := by
    rw [Nat.le_div_iff_mul_le (Nat.mul_pos hb hu)]
    calc k * (b * u) = k * u * b := by ring
      _ ≤ A := hk
  generalize A / (b * u) = n at hn ⊢
  have h1 : k * u ≤ n * u := Nat.mul_le_mul_right u hn
  have h2 : n * u ≤ (n + 1) * u := Nat.mul_le_mul_right u (by omega)
  split
  · exact h1
  · split
    · omega
    · split
      · exact h1
      · omega

/-- Below `2^24` seconds `Seconds()` followed by the conversion to `int` gives the whole
seconds of the duration. -/
theorem durationSeconds_exact (d : Nat) (h : d < 16777216000000000) :
    durationSeconds d / 2 ^ 82 = d / 1000000000 := by
  unfold durationSeconds
  have hsec : d / 1000000000 < 16777216 := by omega
  have hnsec : d % 1000000000 < 1000000000 := Nat.mod_lt _ (by norm_num)
  generalize d / 1000000000 = sec at hsec ⊢
  generalize d % 1000000000 = nsec at hnsec ⊢
  have q1 : ∀ n, f64Quot n 1 = n * 2 ^ 82 := by
    intro n
    have := f64Quot_mul n 1 (by norm_num)
    rwa [Nat.mul_one] at this
  rw [q1, q1, q1]
  -- the quotient `float64(nsec)/1e9`
  have hxq : nsec * 2 ^ 82 * 2 ^ 82 / (1000000000 * 2 ^ 82) = nsec * 2 ^ 82 / 1000000000 :=
    Nat.mul_div_mul_right _ _ (by positivity)
  have htq : gridExp 82 (nsec * 2 ^ 82 * 2 ^ 82 / (1000000000 * 2 ^ 82)) ≤ 29 := by
    apply gridExp_le_of_lt
    rw [hxq]
    have : nsec * 2 ^ 82 / 1000000000 ≤ 999999999 * 2 ^ 82 / 1000000000 :=
      Nat.div_le_div_right (Nat.mul_le_mul_right _ (by omega))
    have h2 : 999999999 * 2 ^ 82 / 1000000000 < 9007199254740992 * 2 ^ 29 := by norm_num
    omega
  have hQ := f64Quot_le (nsec * 2 ^ 82) (1000000000 * 2 ^ 82)
  have hv : (2 : Nat) ^ gridExp 82 (nsec * 2 ^ 82 * 2 ^ 82 / (1000000000 * 2 ^ 82)) ≤ 2 ^ 29 :=
    Nat.pow_le_pow_right (by norm_num) htq
  generalize (2 : Nat) ^ gridExp 82 (nsec * 2 ^ 82 * 2 ^ 82 / (1000000000 * 2 ^ 82)) = v
    at hQ hv
  generalize f64Quot (nsec * 2 ^ 82) (1000000000 * 2 ^ 82) = Q at hQ ⊢
  have hQlt : Q < 2 ^ 82 - 2 ^ 52 := by
    norm_num at hQ hv ⊢
    omega
  -- the sum `float64(sec) + float64(nsec)/1e9`
  have hxs : (sec * 2 ^ 82 + Q) * 2 ^ 82 / 2 ^ 82 = sec * 2 ^ 82 + Q :=
    Nat.mul_div_cancel _ (by positivity)
  have hts : gridExp 82 ((sec * 2 ^ 82 + Q) * 2 ^ 82 / 2 ^ 82) ≤ 53 := by
    apply gridExp_le_of_lt
    rw [hxs]
    norm_num at hQlt ⊢
    omega
  have hts82 : gridExp 82 ((sec * 2 ^ 82 + Q) * 2 ^ 82 / 2 ^ 82) ≤ 82 := gridExp_le 82 _
  have hF := f64Quot_le (sec * 2 ^ 82 + Q) (2 ^ 82)
  have hG := f64Quot_ge (sec * 2 ^ 82 + Q) (2 ^ 82)
    (sec * 2 ^ (82 - gridExp 82 ((sec * 2 ^ 82 + Q) * 2 ^ 82 / 2 ^ 82))) (by positivity)
  generalize ht : gridExp 82 ((sec * 2 ^ 82 + Q) * 2 ^ 82 / 2 ^ 82) = t at hF hG hts hts82
  have hpow : (2 : Nat) ^ (82 - t) * 2 ^ t = 2 ^ 82 := by
    rw [← pow_add]; congr 1; omega
  have hkey : sec * 2 ^ (82 - t) * 2 ^ t = sec * 2 ^ 82 := by
    rw [Nat.mul_assoc, hpow]
  rw [hkey] at hG
  have hlow := hG (by nlinarith)
  have hw : (2 : Nat) ^ t ≤ 2 ^ 53 := Nat.pow_le_pow_right (by norm_num) hts
  generalize (2 : Nat) ^ t = w at hF hw
  generalize f64Quot (sec * 2 ^ 82 + Q) (2 ^ 82) = F at hF hlow ⊢
  have hup : F < (sec + 1) * 2 ^ 82 := by
    norm_num at hF hw hQlt ⊢
    omega
  apply Nat.le_antisymm
  · have := (Nat.div_lt_iff_lt_mul (by positivity : 0 < 2 ^ 82)).mpr hup
    omega
  · exact (Nat.le_div_iff_mul_le (by positivity)).mpr hlow

/-- For a streak shorter than `2^24` seconds line 79 computes the whole seconds elapsed. -/
theorem elapsedSeconds_exact (now fs : Int) (h0 : fs ≤ now)
    (h : now - fs < 16777216000000000) :
    elapsedSeconds now fs = Int.tdiv (now - fs) 1000000000 := by
  unfold elapsedSeconds
  simp only []
  have hd : ¬ (now - fs < 0) := by omega
  rw [if_neg hd]
  rw [durationSeconds_exact _ (by omega), Int.tdiv_eq_ediv (by omega) (by norm_num)]
  push_cast
  rw [abs_of_nonneg (by omega)]

/-- The "timer started" line is written only by a failing tick that finds `failSince`
absent. -/
theorem timerStarted_mem (cfg : Config) (s : State) (t : Tick)
    (h : Event.timerStarted ∈ (tickStep cfg s t).events) :
    t.failed ∧ s.failSince = none := by
  by_cases hf : t.failed
  · refine ⟨hf, ?_⟩
    cases hs : s.failSince with
    | none => rfl
    | some fs =>
      exfalso
      by_cases hge : cfg.timeoutSec ≤ elapsedSeconds t.now fs
      · rw [tickStep_cross cfg s t fs hf hs hge] at h
        cases hp : (ping t.run).2 <;> cases hq : t.poweroffFails <;> simp [hp, hq] at h
      · rw [tickStep_below cfg s t fs hf hs (not_le.mp hge)] at h
        split at h <;> cases hp : (ping t.run).2 <;> simp [hp] at h
  · exfalso
    rw [tickStep_ok cfg s t hf] at h
    cases hp : (ping t.run).2 <;> simp [hp] at h

/-- During a streak that starts at tick `j0` with ticks `intervalSec` apart, and with
`intervalSec ≤ logEverySec`, the state after the tick at elapsed `j * intervalSec` (below the
timeout) has `logSkipped` equal to the number of whole `logEverySec` periods elapsed. -/
theorem streak_state (cfg : Config) (s : State) (ts : List Tick) (j0 : Nat) (t0 : Int)
    (hI : 0 < cfg.intervalSec) (hIL : cfg.intervalSec ≤ cfg.logEverySec)
    (hnone : (stateBefore cfg s ts j0).failSince = none)
    (hstreak : ∀ j tj, ts[j0 + j]? = some tj →
      tj.failed ∧ tj.now = t0 + (j : Int) * cfg.intervalSec * 1000000000)
    (j : Nat) (hj : j0 + j < ts.length)
    (hlt : (j : Int) * cfg.intervalSec < cfg.timeoutSec ∨ j = 0) :
    stateBefore cfg s ts (j0 + j + 1) =
      ⟨some t0, ((j : Int) * cfg.intervalSec) / cfg.logEverySec⟩ := by
  induction j with
  | zero =>
    have ht : ts[j0 + 0]? = some ts[j0 + 0] := List.getElem?_eq_getElem hj
    obtain ⟨hf, hnow⟩ := hstreak 0 _ ht
    have hnone0 : (stateBefore cfg s ts (j0 + 0)).failSince = none := hnone
    rw [stateBefore_succ cfg s ts (j0 + 0) _ ht, tickStep_start cfg _ _ hf hnone0, hnow]
    simp
  | succ j ih =>
    have hlt1 : ((j + 1 : Nat) : Int) * cfg.intervalSec < cfg.timeoutSec := by
      rcases hlt with h | h
      · exact h
      · omega
    have hcast : ((j + 1 : Nat) : Int) * cfg.intervalSec =
        (j : Int) * cfg.intervalSec + cfg.intervalSec := by push_cast; ring
    have hprev := ih (by omega) (Or.inl (by rw [hcast] at hlt1; omega))
    have ht : ts[j0 + (j + 1)]? = some ts[j0 + (j + 1)] := List.getElem?_eq_getElem hj
    obtain ⟨hf, hnow⟩ := hstreak (j + 1) _ ht
    have hel : elapsedSeconds ts[j0 + (j + 1)].now t0 =
        ((j + 1 : Nat) : Int) * cfg.intervalSec := by
      rw [hnow]; exact elapsedSeconds_spaced t0 cfg.intervalSec (j + 1)
    have hfs : (stateBefore cfg s ts (j0 + (j + 1))).failSince = some t0 := by
      rw [show j0 + (j + 1) = j0 + j + 1 by omega, hprev]
    rw [stateBefore_succ cfg s ts (j0 + (j + 1)) _ ht,
      tickStep_below cfg _ _ t0 hf hfs (by rw [hel]; exact hlt1), hel]
    have hls : (stateBefore cfg s ts (j0 + (j + 1))).logSkipped =
        ((j : Int) * cfg.intervalSec) / cfg.logEverySec := by
      rw [show j0 + (j + 1) = j0 + j + 1 by omega, hprev]
    rw [hls, hcast, ediv_step _ _ _ hI hIL]
    split <;> simp

theorem tickStep_below_returned (cfg : Config) (s : State) (t : Tick) (fs : Int)
    (h : t.failed) (hs : s.failSince = some fs)
    (hlt : elapsedSeconds t.now fs < cfg.timeoutSec) :
    (tickStep cfg s t).returned = false := by
  rw [tickStep_below cfg s t fs h hs hlt]
  split <;> rfl

/-- During such a streak every tick up to and including the first one whose elapsed seconds
reach the timeout is executed. -/
theorem streak_executed (cfg : Config) (s : State) (ts : List Tick) (j0 : Nat) (t0 : Int)
    (hI : 0 < cfg.intervalSec) (hIL : cfg.intervalSec ≤ cfg.logEverySec)
    (hnone : (stateBefore cfg s ts j0).failSince = none)
    (hbefore : ∀ k tk, k < j0 → ts[k]? = some tk →
      (tickStep cfg (stateBefore cfg s ts k) tk).returned = false)
    (hstreak : ∀ j tj, ts[j0 + j]? = some tj →
      tj.failed ∧ tj.now = t0 + (j : Int) * cfg.intervalSec * 1000000000)
    (j : Nat) (tj : Tick) (htj : ts[j0 + j]? = some tj)
    (hlt : j = 0 ∨ ((j : Int) - 1) * cfg.intervalSec < cfg.timeoutSec) :
    (monitorLoop cfg s ts)[j0 + j]? = some (tickStep cfg (stateBefore cfg s ts (j0 + j)) tj) := by
  apply monitorLoop_get_of cfg s ts (j0 + j) tj htj
  intro k tk hk hkt
  by_cases hk0 : k < j0
  · exact hbefore k tk hk0 hkt
  · obtain ⟨i, rfl⟩ : ∃ i, k = j0 + i := ⟨k - j0, by omega⟩
    have hij : i < j := by omega
    have hjpos : ((j : Int) - 1) * cfg.intervalSec < cfg.timeoutSec := by
      rcases hlt with h | h
      · omega
      · exact h
    obtain ⟨hf, hnow⟩ := hstreak i tk hkt
    have hklen : j0 + i < ts.length := by
      by_contra hcon
      rw [List.getElem?_eq_none (by omega)] at hkt
      simp at hkt
    cases i with
    | zero =>
      have hnone0 : (stateBefore cfg s ts (j0 + 0)).failSince = none := hnone
      rw [tickStep_start cfg _ tk hf hnone0]
    | succ i =>
      have hile : ((i + 1 : Nat) : Int) ≤ (j : Int) - 1 := by
        have : (i + 1 : Nat) ≤ j - 1 := by omega
        omega
      have hi1 : ((i + 1 : Nat) : Int) * cfg.intervalSec < cfg.timeoutSec :=
        lt_of_le_of_lt (mul_le_mul_of_nonneg_right hile (le_of_lt hI)) hjpos
      have hi0 : (i : Int) * cfg.intervalSec < cfg.timeoutSec := by
        have : (i : Int) * cfg.intervalSec ≤ ((i + 1 : Nat) : Int) * cfg.intervalSec :=
          mul_le_mul_of_nonneg_right (by push_cast; omega) (le_of_lt hI)
        omega
      have hst := streak_state cfg s ts j0 t0 hI hIL hnone hstreak i (by omega) (Or.inl hi0)
      have hfs : (stateBefore cfg s ts (j0 + (i + 1))).failSince = some t0 := by
        rw [show j0 + (i + 1) = j0 + i + 1 by omega, hst]
      apply tickStep_below_returned cfg _ tk t0 hf hfs
      rw [hnow, elapsedSeconds_spaced]
      exact hi1

theorem filter_isProgress_pingErrLog (t : Tick) (l : List Event) :
    (pingErrLog t ++ l).filter Event.isProgress = l.filter Event.isProgress := by
  unfold pingErrLog
  split <;> simp [Event.isProgress]

/-- C6, amended. Let every duration be positive and `logEverySec` a multiple of
`intervalSec`, and let a failure streak start in an executed iteration `j0`, its ticks exactly
`intervalSec` apart and all failing.  Then the tick at elapsed `j * intervalSec` (for `j ≥ 1`)
is executed as long as the tick before it was below the timeout, and:
below the timeout it writes a progress line exactly when its elapsed seconds are a multiple of
`logEverySec`, and `logSkipped` is then the quotient, so the `k`-th progress line stands at
elapsed `k * logEverySec`; at or above the timeout it writes one final progress line, calls
`poweroff` and is the last iteration. -/
theorem progress_lines_at_multiples (addr : String) (cfg : Config) (ticks : List Tick)
    (rs : List StepResult) (j0 : Nat) (t0 : Int) (r0 : StepResult)
    (hI : 0 < cfg.intervalSec) (hL : 0 < cfg.logEverySec)
    (hdvd : cfg.intervalSec ∣ cfg.logEverySec)
    (hrun : monitor addr cfg ticks = some rs)
    (hstart : rs[j0]? = some r0) (hts : Event.timerStarted ∈ r0.events)
    (hstreak : ∀ j tj, ticks[j0 + j]? = some tj →
      tj.failed ∧ tj.now = t0 + (j : Int) * cfg.intervalSec * 1000000000)
    (j : Nat) (tj : Tick) (hj : 1 ≤ j) (htj : ticks[j0 + j]? = some tj)
    (hprev : ((j : Int) - 1) * cfg.intervalSec < cfg.timeoutSec) :
    ∃ r, rs[j0 + j]? = some r ∧
      ((j : Int) * cfg.intervalSec < cfg.timeoutSec →
        r.events.filter Event.isProgress =
          (if cfg.logEverySec ∣ (j : Int) * cfg.intervalSec then
            [Event.progress ((j : Int) * cfg.intervalSec) cfg.timeoutSec] else []) ∧
        r.state.logSkipped = ((j : Int) * cfg.intervalSec) / cfg.logEverySec ∧
        ¬ invokesPoweroff r ∧ r.returned = false) ∧
      (cfg.timeoutSec ≤ (j : Int) * cfg.intervalSec →
        r.events.filter Event.isProgress =
          [Event.progress ((j : Int) * cfg.intervalSec) cfg.timeoutSec] ∧
        invokesPoweroff r ∧ r.returned = true ∧ rs.length = j0 + j + 1) := by
  have hrs := monitor_eq_some addr cfg ticks rs hrun
  subst hrs
  have hIL : cfg.intervalSec ≤ cfg.logEverySec := Int.le_of_dvd hL hdvd
  obtain ⟨tj0, _, hr0, hbefore⟩ := monitorLoop_get cfg State.init ticks j0 r0 hstart
  subst hr0
  obtain ⟨_, hnone⟩ := timerStarted_mem cfg _ tj0 hts
  have hex := streak_executed cfg State.init ticks j0 t0 hI hIL hnone hbefore hstreak j tj htj
    (Or.inr hprev)
  obtain ⟨i, rfl⟩ : ∃ i, j = i + 1 := ⟨j - 1, by omega⟩
  have hi0 : (i : Int) * cfg.intervalSec < cfg.timeoutSec := by
    have : (((i + 1 : Nat) : Int) - 1) = (i : Int) := by push_cast; ring
    rw [this] at hprev
    exact hprev
  have hlen : j0 + (i + 1) < ticks.length := by
    by_contra hcon
    rw [List.getElem?_eq_none (by omega)] at htj
    simp at htj
  have hst := streak_state cfg State.init ticks j0 t0 hI hIL hnone hstreak i (by omega)
    (Or.inl hi0)
  have hst1 : stateBefore cfg State.init ticks (j0 + (i + 1)) =
      ⟨some t0, ((i : Int) * cfg.intervalSec) / cfg.logEverySec⟩ := by
    rw [show j0 + (i + 1) = j0 + i + 1 by omega, hst]
  obtain ⟨hf, hnow⟩ := hstreak (i + 1) tj htj
  have hel : elapsedSeconds tj.now t0 = ((i + 1 : Nat) : Int) * cfg.intervalSec := by
    rw [hnow]; exact elapsedSeconds_spaced t0 cfg.intervalSec (i + 1)
  have hcast : ((i + 1 : Nat) : Int) * cfg.intervalSec =
      (i : Int) * cfg.intervalSec + cfg.intervalSec := by push_cast; ring
  have hfs : (stateBefore cfg State.init ticks (j0 + (i + 1))).failSince = some t0 := by
    rw [hst1]
  have hls : (stateBefore cfg State.init ticks (j0 + (i + 1))).logSkipped =
      ((i : Int) * cfg.intervalSec) / cfg.logEverySec := by
    rw [hst1]
  refine ⟨_, hex, ?_, ?_⟩
  · intro hlt
    have hstep := tickStep_below cfg _ tj t0 hf hfs (by rw [hel]; exact hlt)
    rw [hls, hel] at hstep
    have hms := milestone_iff_dvd ((i : Int) * cfg.intervalSec) cfg.intervalSec cfg.logEverySec
      hI hdvd hL (Dvd.intro_left _ rfl)
    have hdiv := ediv_step ((i : Int) * cfg.intervalSec) cfg.intervalSec cfg.logEverySec hI hIL
    rw [← hcast] at hms hdiv
    have hinv : ¬ invokesPoweroff
        (tickStep cfg (stateBefore cfg State.init ticks (j0 + (i + 1))) tj) := by
      intro hp
      have h1 := (tickStep_returned_iff cfg _ tj).1.mpr hp
      have h2 := tickStep_below_returned cfg _ tj t0 hf hfs (by rw [hel]; exact hlt)
      rw [h2] at h1
      exact Bool.false_ne_true h1
    refine ⟨?_, ?_, hinv, tickStep_below_returned cfg _ tj t0 hf hfs (by rw [hel]; exact hlt)⟩
    · rw [hstep]
      by_cases hm : (↑i * cfg.intervalSec / cfg.logEverySec + 1) * cfg.logEverySec ≤
          ((i + 1 : Nat) : Int) * cfg.intervalSec
      · rw [if_pos hm, if_pos (hms.mp hm)]
        have := filter_isProgress_pingErrLog tj
          [Event.progress (((i + 1 : Nat) : Int) * cfg.intervalSec) cfg.timeoutSec]
        unfold pingErrLog at this
        rw [this]
        simp [Event.isProgress]
      · rw [if_neg hm, if_neg (fun h => hm (hms.mpr h))]
        have := filter_isProgress_pingErrLog tj []
        unfold pingErrLog at this
        simp only [List.append_nil] at this
        rw [this]
        simp
    · rw [hstep, hdiv]
      split <;> rfl
  · intro hge
    have hcross := tickStep_cross cfg _ tj t0 hf hfs (by rw [hel]; exact hge)
    rw [hel] at hcross
    have hret : (tickStep cfg (stateBefore cfg State.init ticks (j0 + (i + 1))) tj).returned
        = true := by rw [hcross]
    refine ⟨?_, (tickStep_returned_iff cfg _ tj).1.mp hret, hret,
      monitorLoop_length_of_returned cfg State.init ticks _ _ hex hret⟩
    rw [hcross]
    cases (ping tj.run).2 <;> cases tj.poweroffFails <;> simp [List.filter, Event.isProgress]

/-- C6, as stated, fails: with `intervalSec = 2`, `timeoutSec = 10`, `logEverySec = 3` and
failing ticks two seconds apart, the progress lines report 4, 6 and 10 elapsed seconds, so
the first one is not at `1 * logEverySec = 3`. -/
theorem progress_lines_off_multiples :
    ∃ rs, monitor "192.168.1.1" ⟨2, 10, 3⟩ (spacedFailing 0 2 8) = some rs ∧
      progressElapsed rs = [4, 6, 10] ∧
      ¬ (∀ (k : Nat) (e : Int), (progressElapsed rs)[k]? = some e → e < 10 →
          e = ((k : Int) + 1) * 3) := by
  refine ⟨monitorLoop ⟨2, 10, 3⟩ State.init (spacedFailing 0 2 8), by decide, by decide, ?_⟩
  intro h
  have h4 := h 0 4 (by decide) (by decide)
  omega

/-- C8, as stated, fails: with `intervalSec = 1`, `timeoutSec = 5`, `logEverySec = 2` and
failing ticks at t = 1, 2, 3, ... the iteration at t = 2 writes no progress line, the one at
t = 5 does not call `poweroff`, and the tick at t = 6 is executed. -/
theorem example_timeout5_not_at_t5 :
    ¬ ∃ rs r1 r3 r4, monitor "192.168.1.1" ⟨1, 5, 2⟩ (failingAt [1, 2, 3, 4, 5, 6, 7, 8]) = some rs ∧
      rs[1]? = some r1 ∧ r1.events.filter Event.isProgress ≠ [] ∧
      rs[3]? = some r3 ∧ r3.events.filter Event.isProgress ≠ [] ∧
      rs[4]? = some r4 ∧ invokesPoweroff r4 ∧ rs.length = 5 := by
  rintro ⟨rs, r1, r3, r4, hrun, -, -, -, -, -, -, hlen⟩
  have hrs := monitor_eq_some _ _ _ _ hrun
  subst hrs
  revert hlen
  decide

/-- C8, amended. With `intervalSec = 1`, `timeoutSec = 5`, `logEverySec = 2` and failing ticks
at t = 1, 2, ..., 8: the iteration at t = 1 writes the streak-start line, those at t = 3 and
t = 5 write progress lines (2 and 4 seconds elapsed), the one at t = 6 writes the final
progress line and calls `poweroff`, and the ticks at t = 7 and t = 8 are not executed. -/
theorem example_timeout5_trace :
    (monitor "192.168.1.1" ⟨1, 5, 2⟩ (failingAt [1, 2, 3, 4, 5, 6, 7, 8])).map
        (fun rs => rs.map StepResult.events) =
      some [[Event.timerStarted], [], [Event.progress 2 5], [], [Event.progress 4 5],
        [Event.progress 5 5, Event.poweroffTriggered, Event.systemctlPoweroff]] := by
  decide

/-- C9, as stated, fails: with `intervalSec = 5`, `timeoutSec = 120`, `logEverySec = 30`,
failing ticks at t = 5, ..., 35 and a success at t = 40, the iteration at t = 30 writes no
progress line. -/
theorem example_recovery_not_at_t30 :
    ¬ ∃ rs r, monitor "192.168.1.1" ⟨5, 120, 30⟩
        (failingAt [5, 10, 15, 20, 25, 30, 35] ++ [okAt 40]) = some rs ∧
      rs[5]? = some r ∧ r.events.filter Event.isProgress ≠ [] := by
  rintro ⟨rs, r, hrun, hr, hne⟩
  have hrs := monitor_eq_some _ _ _ _ hrun
  subst hrs
  have : r = ⟨⟨some 5000000000, 0⟩, [], false⟩ := by
    have h5 : (monitorLoop ⟨5, 120, 30⟩ State.init
        (failingAt [5, 10, 15, 20, 25, 30, 35] ++ [okAt 40]))[5]? =
        some ⟨⟨some 5000000000, 0⟩, [], false⟩ := by decide
    rw [h5] at hr
    exact (Option.some.inj hr).symm
  subst this
  exact hne rfl

/-- C9, amended. With `intervalSec = 5`, `timeoutSec = 120`, `logEverySec = 30`, failing ticks
at t = 5, ..., 35 and a success at t = 40: the only progress line of the streak is written at
t = 35 (30 seconds after the streak-start tick t = 5), the OK line at t = 40, after which
`logSkipped = 0` and `failSince` is absent; `poweroff` is not called. -/
theorem example_recovery_trace :
    (monitor "192.168.1.1" ⟨5, 120, 30⟩
        (failingAt [5, 10, 15, 20, 25, 30, 35] ++ [okAt 40])).map
        (fun rs => rs.map StepResult.events) =
      some [[Event.timerStarted], [], [], [], [], [], [Event.progress 30 120],
        [Event.pingOK]] ∧
    stateAfter ⟨5, 120, 30⟩ State.init (failingAt [5, 10, 15, 20, 25, 30, 35] ++ [okAt 40]) =
      ⟨none, 0⟩ ∧
    ((monitor "192.168.1.1" ⟨5, 120, 30⟩
        (failingAt [5, 10, 15, 20, 25, 30, 35] ++ [okAt 40])).bind List.getLast?).map
        StepResult.state = some ⟨none, 0⟩ ∧
    Event.systemctlPoweroff ∉ monitorLog "192.168.1.1" ⟨5, 120, 30⟩
        (failingAt [5, 10, 15, 20, 25, 30, 35] ++ [okAt 40]) := by
  decide

/-! ## Start-up -/

/-- With a positive fallback `getenvInt` returns a positive number. -/
theorem getenvInt_pos (env : String → String) (key : String) (fallback : Int)
    (h : 0 < fallback) : 0 < (getenvInt env key fallback).1 := by
  unfold getenvInt
  simp only []
  split
  · exact h
  · split
    · exact h
    · split
      · exact h
      · rename_i hn; exact not_le.mp hn

/-- A value that parses as an integer `n ≤ 0` is replaced by the fallback, with the warning
line. -/
theorem getenvInt_nonpos (env : String → String) (key : String) (fallback n : Int)
    (hparse : atoi (env key) = some n) (hn : n ≤ 0) :
    getenvInt env key fallback = (fallback, [Event.invalidEnv key (env key) fallback]) := by
  have hne : env key ≠ "" := by
    intro he
    have h0 : atoi "" = none := by decide
    rw [he, h0] at hparse
    exact Option.noConfusion hparse
  unfold getenvInt
  simp only [hne, if_false, hparse, hn, if_true]

/-- The start-up part of `main` never takes an abort branch: `main` calls `monitor` with the
address and the three numbers `getenvInt` returns, having logged what `getenvInt` logged. -/
theorem main_calls_monitor (env : String → String) (ticks : List Tick) :
    (main env ticks).monitorCall =
      some (if env "TARGET_ADDR" = "" then "192.168.1.1" else env "TARGET_ADDR",
        ⟨(getenvInt env "TARGET_INTERVAL" 5).1, (getenvInt env "TARGET_TIMEOUT" 120).1,
          (getenvInt env "TARGET_LOG_EVERY" 30).1⟩) ∧
    (main env ticks).exit ≠ some 1 ∧
    (∀ e, e ∈ (getenvInt env "TARGET_INTERVAL" 5).2 ++ (getenvInt env "TARGET_TIMEOUT" 120).2 ++
        (getenvInt env "TARGET_LOG_EVERY" 30).2 → e ∈ (main env ticks).log) := by
  have hi := getenvInt_pos env "TARGET_INTERVAL" 5 (by norm_num)
  have ht := getenvInt_pos env "TARGET_TIMEOUT" 120 (by norm_num)
  have hl := getenvInt_pos env "TARGET_LOG_EVERY" 30 (by norm_num)
  have hcond : ¬ ((getenvInt env "TARGET_INTERVAL" 5).1 ≤ 0 ∨
      (getenvInt env "TARGET_TIMEOUT" 120).1 ≤ 0 ∨
      (getenvInt env "TARGET_LOG_EVERY" 30).1 ≤ 0) := by
    intro h
    rcases h with h | h | h <;> omega
  have haddr : (if env "TARGET_ADDR" = "" then "192.168.1.1" else env "TARGET_ADDR") ≠ "" := by
    split
    · decide
    · assumption
  unfold main
  simp only [hcond, haddr, if_false]
  cases monitor (if env "TARGET_ADDR" = "" then "192.168.1.1" else env "TARGET_ADDR")
      ⟨(getenvInt env "TARGET_INTERVAL" 5).1, (getenvInt env "TARGET_TIMEOUT" 120).1,
        (getenvInt env "TARGET_LOG_EVERY" 30).1⟩ ticks with
  | none =>
    refine ⟨rfl, by simp, fun e he => he⟩
  | some rs =>
    refine ⟨rfl, ?_, fun e he => List.mem_append_left _ he⟩
    simp only []
    split <;> simp

/-- C10, as stated, fails: with `TARGET_TIMEOUT="0"` and nothing else set, `main` does not
exit with status 1; it calls `monitor` with the default timeout and a tick is processed. -/
theorem timeout_zero_does_not_abort :
    ¬ ((main envTimeoutZero (failingAt [5])).exit = some 1 ∧
        (main envTimeoutZero (failingAt [5])).monitorCall = none ∧
        (main envTimeoutZero (failingAt [5])).steps = []) := by
  decide

/-- C10, amended. When one of the three duration variables is set to a string that parses as
an integer `n ≤ 0`, `getenvInt` writes the warning line and the default (5, 120, 30) stands in
for that variable; `main` does not exit with status 1 but calls `monitor`, with three positive
durations. -/
theorem nonpositive_override_falls_back (env : String → String) (ticks : List Tick) (n : Int)
    (hn : n ≤ 0) :
    (main env ticks).exit ≠ some 1 ∧
    ∃ addr cfg, (main env ticks).monitorCall = some (addr, cfg) ∧
      0 < cfg.intervalSec ∧ 0 < cfg.timeoutSec ∧ 0 < cfg.logEverySec ∧
      (atoi (env "TARGET_INTERVAL") = some n → cfg.intervalSec = 5 ∧
        Event.invalidEnv "TARGET_INTERVAL" (env "TARGET_INTERVAL") 5 ∈ (main env ticks).log) ∧
      (atoi (env "TARGET_TIMEOUT") = some n → cfg.timeoutSec = 120 ∧
        Event.invalidEnv "TARGET_TIMEOUT" (env "TARGET_TIMEOUT") 120 ∈ (main env ticks).log) ∧
      (atoi (env "TARGET_LOG_EVERY") = some n → cfg.logEverySec = 30 ∧
        Event.invalidEnv "TARGET_LOG_EVERY" (env "TARGET_LOG_EVERY") 30 ∈
          (main env ticks).log) := by
  obtain ⟨hcall, hexit, hlog⟩ := main_calls_monitor env ticks
  refine ⟨hexit, _, _, hcall, getenvInt_pos env _ 5 (by norm_num),
    getenvInt_pos env _ 120 (by norm_num), getenvInt_pos env _ 30 (by norm_num), ?_, ?_, ?_⟩
  · intro h
    have hg := getenvInt_nonpos env "TARGET_INTERVAL" 5 n h hn
    refine ⟨by rw [hg], hlog _ ?_⟩
    rw [hg]; simp
  · intro h
    have hg := getenvInt_nonpos env "TARGET_TIMEOUT" 120 n h hn
    refine ⟨by rw [hg], hlog _ ?_⟩
    rw [hg]; simp
  · intro h
    have hg := getenvInt_nonpos env "TARGET_LOG_EVERY" 30 n h hn
    refine ⟨by rw [hg], hlog _ ?_⟩
    rw [hg]; simp

/-! ## The claims at concrete inputs -/

theorem spacedFailing_get (t0 intervalSec : Int) (n j : Nat) (tj : Tick)
    (h : (spacedFailing t0 intervalSec n)[j]? = some tj) :
    tj.failed ∧ tj.now = t0 + (j : Int) * intervalSec * 1000000000 := by
  unfold spacedFailing at h
  rw [List.getElem?_map] at h
  cases hr : (List.range n)[j]? with
  | none => rw [hr] at h; simp at h
  | some k =>
    rw [hr] at h
    have hk : k = j := by
      rw [List.getElem?_eq_some] at hr
      obtain ⟨_, hk⟩ := hr
      rw [List.getElem_range] at hk
      exact hk.symm
    subst hk
    simp only [Option.map_some', Option.some.injEq] at h
    subst h
    exact ⟨rfl, rfl⟩

/-- The lemma `poweroff_only_after_timeout` at `intervalSec = 1`, `timeoutSec = 5`,
`logEverySec = 2` with failing ticks at t = 1, ..., 8: `poweroff` is called in iteration 5
(t = 6). -/
theorem poweroff_only_after_timeout_witness :
    monitor "192.168.1.1" ⟨1, 5, 2⟩ (failingAt [1, 2, 3, 4, 5, 6, 7, 8]) =
      some (monitorLoop ⟨1, 5, 2⟩ State.init (failingAt [1, 2, 3, 4, 5, 6, 7, 8])) ∧
    (monitorLoop ⟨1, 5, 2⟩ State.init (failingAt [1, 2, 3, 4, 5, 6, 7, 8]))[5]? =
      some (tickStep ⟨1, 5, 2⟩ ⟨some 1000000000, 2⟩ ⟨6000000000, RunResult.otherError, false⟩) ∧
    invokesPoweroff
      (tickStep ⟨1, 5, 2⟩ ⟨some 1000000000, 2⟩ ⟨6000000000, RunResult.otherError, false⟩) ∧
    ∃ j tj rj ti, j < 5 ∧ (failingAt [1, 2, 3, 4, 5, 6, 7, 8])[j]? = some tj ∧
      (monitorLoop ⟨1, 5, 2⟩ State.init (failingAt [1, 2, 3, 4, 5, 6, 7, 8]))[j]? = some rj ∧
      (failingAt [1, 2, 3, 4, 5, 6, 7, 8])[5]? = some ti ∧
      Event.timerStarted ∈ rj.events ∧ rj.state.failSince = some tj.now ∧
      (stateBefore ⟨1, 5, 2⟩ State.init (failingAt [1, 2, 3, 4, 5, 6, 7, 8]) 5).failSince =
        some tj.now ∧
      (∀ k tk, j ≤ k → k ≤ 5 → (failingAt [1, 2, 3, 4, 5, 6, 7, 8])[k]? = some tk → tk.failed) ∧
      ti.failed ∧ (5 : Int) ≤ elapsedSeconds ti.now tj.now :=
  ⟨by decide, by decide, by decide,
    poweroff_only_after_timeout "192.168.1.1" ⟨1, 5, 2⟩ (failingAt [1, 2, 3, 4, 5, 6, 7, 8])
      (monitorLoop ⟨1, 5, 2⟩ State.init (failingAt [1, 2, 3, 4, 5, 6, 7, 8])) 5
      (tickStep ⟨1, 5, 2⟩ ⟨some 1000000000, 2⟩ ⟨6000000000, RunResult.otherError, false⟩)
      (by decide) (by decide) (by decide)⟩

/-- C2 at `intervalSec = 2`, `timeoutSec = 3`, `logEverySec = 10` on `deadlineTicks`: the
third tick is the first to cross the timeout, and the command fails. -/
theorem poweroff_exactly_once_witness :
    crossesAt ⟨2, 3, 10⟩ deadlineTicks 2 = true ∧
    (∀ k, k < 2 → crossesAt ⟨2, 3, 10⟩ deadlineTicks k = false) ∧
    (monitorLog "192.168.1.1" ⟨2, 3, 10⟩ deadlineTicks).count Event.systemctlPoweroff = 1 ∧
    (monitorLoop ⟨2, 3, 10⟩ State.init deadlineTicks).length = 2 + 1 ∧
    (∃ r, (monitorLoop ⟨2, 3, 10⟩ State.init deadlineTicks)[2]? = some r ∧
      invokesPoweroff r ∧ r.returned = true) ∧
    ∀ k rk, k < 2 → (monitorLoop ⟨2, 3, 10⟩ State.init deadlineTicks)[k]? = some rk →
      ¬ invokesPoweroff rk :=
  ⟨by decide, by decide,
    (poweroff_exactly_once "192.168.1.1" ⟨2, 3, 10⟩ deadlineTicks).2
      (monitorLoop ⟨2, 3, 10⟩ State.init deadlineTicks) 2 (by decide) (by decide) (by decide)⟩

/-- C5, as stated, fails: after one failing tick `failSince` is present and `logSkipped` is
still 0. -/
theorem failSince_present_logSkipped_zero :
    ∃ r, monitor "192.168.1.1" ⟨5, 120, 30⟩ (failingAt [5]) = some [r] ∧
      ¬ (r.state.failSince = none ↔ r.state.logSkipped = 0) :=
  ⟨⟨⟨some 5000000000, 0⟩, [Event.timerStarted], false⟩, by decide, by decide⟩

/-- C5, amended, at the state an OK tick leaves after two failing ticks. -/
theorem failSince_absent_logSkipped_zero_witness :
    monitor "192.168.1.1" ⟨5, 120, 30⟩ (failingAt [5, 10] ++ [okAt 15]) =
      some (monitorLoop ⟨5, 120, 30⟩ State.init (failingAt [5, 10] ++ [okAt 15])) ∧
    (tickStep ⟨5, 120, 30⟩ ⟨some 5000000000, 0⟩ (okAt 15)) ∈
      monitorLoop ⟨5, 120, 30⟩ State.init (failingAt [5, 10] ++ [okAt 15]) ∧
    (tickStep ⟨5, 120, 30⟩ ⟨some 5000000000, 0⟩ (okAt 15)).state.failSince = none ∧
    (tickStep ⟨5, 120, 30⟩ ⟨some 5000000000, 0⟩ (okAt 15)).state.logSkipped = 0 :=
  ⟨by decide, by decide, by decide,
    failSince_absent_logSkipped_zero "192.168.1.1" ⟨5, 120, 30⟩
      (failingAt [5, 10] ++ [okAt 15])
      (monitorLoop ⟨5, 120, 30⟩ State.init (failingAt [5, 10] ++ [okAt 15]))
      (tickStep ⟨5, 120, 30⟩ ⟨some 5000000000, 0⟩ (okAt 15)).state (by decide)
      (Or.inr ⟨tickStep ⟨5, 120, 30⟩ ⟨some 5000000000, 0⟩ (okAt 15), by decide, rfl⟩)
      (by decide)⟩

/-- C6, amended, at the defaults `intervalSec = 5`, `timeoutSec = 120`, `logEverySec = 30`:
in a streak that starts at the first tick, the tick 30 seconds later is executed and writes
the first progress line. -/
theorem progress_lines_at_multiples_witness :
    (0 : Int) < 5 ∧ (0 : Int) < 30 ∧ (5 : Int) ∣ 30 ∧
    monitor "192.168.1.1" ⟨5, 120, 30⟩ (spacedFailing 5000000000 5 30) =
      some (monitorLoop ⟨5, 120, 30⟩ State.init (spacedFailing 5000000000 5 30)) ∧
    (∃ r0, (monitorLoop ⟨5, 120, 30⟩ State.init (spacedFailing 5000000000 5 30))[0]? = some r0 ∧
      Event.timerStarted ∈ r0.events) ∧
    ∃ r, (monitorLoop ⟨5, 120, 30⟩ State.init (spacedFailing 5000000000 5 30))[0 + 6]? = some r ∧
      r.events.filter Event.isProgress = [Event.progress 30 120] ∧
      r.state.logSkipped = 1 ∧ ¬ invokesPoweroff r ∧ r.returned = false := by
  refine ⟨by decide, by decide, by decide, by decide,
    ⟨tickStep ⟨5, 120, 30⟩ State.init ⟨5000000000, RunResult.otherError, false⟩,
      by decide, by decide⟩, ?_⟩
  obtain ⟨r, hr, hbelow, _⟩ :=
    progress_lines_at_multiples "192.168.1.1" ⟨5, 120, 30⟩ (spacedFailing 5000000000 5 30)
      (monitorLoop ⟨5, 120, 30⟩ State.init (spacedFailing 5000000000 5 30)) 0 5000000000 (tickStep ⟨5, 120, 30⟩ State.init ⟨5000000000, RunResult.otherError, false⟩)
      (by decide) (by decide) (by decide) (by decide) (by decide) (by decide)
      (fun j tj h => spacedFailing_get 5000000000 5 30 (0 + j) tj h |>.imp id
        (fun h2 => by rw [h2]; push_cast; ring))
      6 ⟨35000000000, RunResult.otherError, false⟩ (by decide) (by decide) (by decide)
  exact ⟨r, hr, by simpa using hbelow (by decide)⟩

/-- C7 at `intervalSec = 2`, `timeoutSec = 3`, `logEverySec = 10` on `deadlineTicks`: the
final line is written although the first milestone (10 seconds) has not been reached. -/
theorem final_progress_line_witness :
    (∃ r, (monitorLoop ⟨2, 3, 10⟩ State.init deadlineTicks)[2]? = some r ∧ invokesPoweroff r) ∧
    ∃ ti fs, deadlineTicks[2]? = some ti ∧
      (stateBefore ⟨2, 3, 10⟩ State.init deadlineTicks 2).failSince = some fs ∧
      (tickStep ⟨2, 3, 10⟩ ⟨some 0, 0⟩ ⟨4000000000, RunResult.deadlineExceeded, true⟩).events =
        pingErrLog ti ++
          [Event.progress (elapsedSeconds ti.now fs) 3,
            Event.poweroffTriggered, Event.systemctlPoweroff] ++
          (if ti.poweroffFails then [Event.poweroffErr] else []) ∧
      (tickStep ⟨2, 3, 10⟩ ⟨some 0, 0⟩
          ⟨4000000000, RunResult.deadlineExceeded, true⟩).events.filter Event.isProgress =
        [Event.progress (elapsedSeconds ti.now fs) 3] ∧
      (tickStep ⟨2, 3, 10⟩ ⟨some 0, 0⟩
          ⟨4000000000, RunResult.deadlineExceeded, true⟩).state.logSkipped =
        (stateBefore ⟨2, 3, 10⟩ State.init deadlineTicks 2).logSkipped + 1 :=
  ⟨⟨tickStep ⟨2, 3, 10⟩ ⟨some 0, 0⟩ ⟨4000000000, RunResult.deadlineExceeded, true⟩,
      by decide, by decide⟩,
    final_progress_line "192.168.1.1" ⟨2, 3, 10⟩ deadlineTicks
      (monitorLoop ⟨2, 3, 10⟩ State.init deadlineTicks) 2
      (tickStep ⟨2, 3, 10⟩ ⟨some 0, 0⟩ ⟨4000000000, RunResult.deadlineExceeded, true⟩)
      (by decide) (by decide) (by decide)⟩

/-- C10, amended, at `TARGET_TIMEOUT="0"`. -/
theorem nonpositive_override_falls_back_witness :
    atoi (envTimeoutZero "TARGET_TIMEOUT") = some 0 ∧
    (main envTimeoutZero (failingAt [5])).exit ≠ some 1 ∧
    (main envTimeoutZero (failingAt [5])).monitorCall =
      some ("192.168.1.1", ⟨5, 120, 30⟩) ∧
    Event.invalidEnv "TARGET_TIMEOUT" "0" 120 ∈ (main envTimeoutZero (failingAt [5])).log := by
  have h := nonpositive_override_falls_back envTimeoutZero (failingAt [5]) 0 (by decide)
  exact ⟨by decide, h.1, by decide, by decide⟩

/-! ## `getenvInt` and the probe outcomes -/

/-- C11. `getenvInt` returns the parsed integer, without a log line, when the value parses
as an integer `n > 0`; it returns the fallback without a log line when the variable is unset
or empty; it returns the fallback with the warning line when the value is non-empty and does
not parse or parses as `n ≤ 0`.  So the warning is written exactly when the value is non-empty
and rejected. -/
theorem getenvInt_cases (env : String → String) (key : String) (fallback : Int) :
    (env key = "" → getenvInt env key fallback = (fallback, [])) ∧
    (∀ n, atoi (env key) = some n → 0 < n → getenvInt env key fallback = (n, [])) ∧
    (env key ≠ "" → (∀ n, atoi (env key) = some n → n ≤ 0) →
      getenvInt env key fallback = (fallback, [Event.invalidEnv key (env key) fallback])) ∧
    ((getenvInt env key fallback).2 ≠ [] ↔
      (env key ≠ "" ∧ ∀ n, atoi (env key) = some n → n ≤ 0)) := by
  have h0 : atoi "" = none := by decide
  refine ⟨?_, ?_, ?_, ?_⟩
  · intro he
    simp [getenvInt, he]
  · intro n hn hpos
    have hne : env key ≠ "" := by
      intro he
      rw [he, h0] at hn
      exact Option.noConfusion hn
    simp [getenvInt, hne, hn, not_le.mpr hpos]
  · intro hne hrej
    cases hp : atoi (env key) with
    | none => simp [getenvInt, hne, hp]
    | some n => simp [getenvInt, hne, hp, hrej n hp]
  · by_cases he : env key = ""
    · simp [getenvInt, he]
    · cases hp : atoi (env key) with
      | none => simp [getenvInt, he, hp]
      | some n =>
        by_cases hn : n ≤ 0
        · simp [getenvInt, he, hp, hn]
        · simp [getenvInt, he, hp, hn]

/-- C13. In any state, at any clock reading and for any configuration, an iteration whose
`ping` ends on the deadline (`ok = false`, `err` non-nil) and one whose `ping` is plainly
unreachable (`ok = false`, `err = nil`) leave the same state, take the same decision to call
`poweroff` and to return, and write the same lines, the first one with the `Ping err` line
in front. -/
theorem deadline_like_unreachable (cfg : Config) (s : State) (now : Int) (pf : Bool) :
    ping RunResult.deadlineExceeded = (false, true) ∧
    ping RunResult.otherError = (false, false) ∧
    (tickStep cfg s ⟨now, RunResult.deadlineExceeded, pf⟩).state =
      (tickStep cfg s ⟨now, RunResult.otherError, pf⟩).state ∧
    (tickStep cfg s ⟨now, RunResult.deadlineExceeded, pf⟩).returned =
      (tickStep cfg s ⟨now, RunResult.otherError, pf⟩).returned ∧
    (invokesPoweroff (tickStep cfg s ⟨now, RunResult.deadlineExceeded, pf⟩) ↔
      invokesPoweroff (tickStep cfg s ⟨now, RunResult.otherError, pf⟩)) ∧
    (tickStep cfg s ⟨now, RunResult.deadlineExceeded, pf⟩).events =
      Event.pingErr :: (tickStep cfg s ⟨now, RunResult.otherError, pf⟩).events ∧
    Event.pingErr ∉ (tickStep cfg s ⟨now, RunResult.otherError, pf⟩).events := by
  refine ⟨rfl, rfl, ?_⟩
  cases hs : s.failSince with
  | none => simp [tickStep, ping, hs, invokesPoweroff]
  | some fs =>
    by_cases hge : cfg.timeoutSec ≤ elapsedSeconds now fs
    · cases pf <;> simp [tickStep, ping, hs, hge, invokesPoweroff, poweroff]
    · by_cases hm : (s.logSkipped + 1) * cfg.logEverySec ≤ elapsedSeconds now fs <;>
        simp [tickStep, ping, hs, hge, hm, invokesPoweroff]

/-- C14. While `failSince` is present a failing tick leaves it as it is.  An iteration
changes `failSince` only in two ways: a successful probe clears it, and a failing probe that
finds it absent sets it to the clock reading of the iteration. -/
theorem failSince_frame (cfg : Config) (s : State) (t : Tick) :
    (∀ fs, s.failSince = some fs → t.failed →
      (tickStep cfg s t).state.failSince = some fs) ∧
    ((tickStep cfg s t).state.failSince ≠ s.failSince →
      (¬ t.failed ∧ (tickStep cfg s t).state.failSince = none) ∨
      (t.failed ∧ s.failSince = none ∧ (tickStep cfg s t).state.failSince = some t.now)) := by
  rw [tickStep_failSince]
  by_cases hf : t.failed
  · have h1 : (ping t.run).1 = false := hf
    cases hs : s.failSince with
    | none => simp [h1, hf]
    | some fs => simp [h1]
  · have h1 : (ping t.run).1 = true := by simpa [Tick.failed] using hf
    simp [h1, hf]

/-! ## Order of the log -/

/-- When some executed iteration returns, it is the last one, and no iteration before it
returns. -/
theorem monitorLoop_returned_last (cfg : Config) (s : State) (ts : List Tick)
    (h : (monitorLoop cfg s ts).any StepResult.returned = true) :
    ∃ front t, monitorLoop cfg s ts =
        front ++ [tickStep cfg (stateBefore cfg s ts front.length) t] ∧
      ts[front.length]? = some t ∧
      (tickStep cfg (stateBefore cfg s ts front.length) t).returned = true ∧
      ∀ r, r ∈ front → r.returned = false := by
  rw [List.any_eq_true] at h
  obtain ⟨r, hmem, hret⟩ := h
  obtain ⟨i, hi⟩ := List.getElem?_of_mem hmem
  have hlen := monitorLoop_length_of_returned cfg s ts i r hi hret
  obtain ⟨t, ht, hr, hno⟩ := monitorLoop_get cfg s ts i r hi
  rcases List.eq_nil_or_concat (monitorLoop cfg s ts) with hnil | ⟨front, last, hcat⟩
  · rw [hnil] at hlen
    simp at hlen
  · rw [List.concat_eq_append] at hcat
    have hfl : front.length = i := by
      rw [hcat] at hlen
      simp at hlen
      exact hlen
    have hlast : last = r := by
      rw [hcat, ← hfl] at hi
      simp at hi
      exact hi
    subst hlast
    subst hr
    refine ⟨front, t, by rw [hcat, hfl], by rw [hfl]; exact ht, by rw [hfl]; exact hret, ?_⟩
    intro r' hr'
    obtain ⟨k, hk⟩ := List.getElem?_of_mem hr'
    have hklt : k < front.length := by
      by_contra hcon
      rw [List.getElem?_eq_none (by omega)] at hk
      simp at hk
    have hk2 : (monitorLoop cfg s ts)[k]? = some r' := by
      rw [hcat, List.getElem?_append_left hklt]
      exact hk
    obtain ⟨tk, htk, hrk, _⟩ := monitorLoop_get cfg s ts k r' hk2
    rw [hrk]
    exact hno k tk (by omega) htk

/-- An iteration that does not return does not touch `poweroff`. -/
theorem tickStep_not_returned_events (cfg : Config) (s : State) (t : Tick)
    (h : (tickStep cfg s t).returned = false) :
    Event.systemctlPoweroff ∉ (tickStep cfg s t).events ∧
    Event.poweroffTriggered ∉ (tickStep cfg s t).events := by
  by_cases hf : t.failed
  · cases hs : s.failSince with
    | none =>
      rw [tickStep_start cfg s t hf hs]
      cases (ping t.run).2 <;> simp
    | some fs =>
      by_cases hge : cfg.timeoutSec ≤ elapsedSeconds t.now fs
      · rw [tickStep_cross cfg s t fs hf hs hge] at h
        simp at h
      · rw [tickStep_below cfg s t fs hf hs (not_le.mp hge)]
        split <;> cases (ping t.run).2 <;> simp
  · rw [tickStep_ok cfg s t hf]
    cases (ping t.run).2 <;> simp

/-- C12, as stated, fails: on `deadlineTicks` the run terminates, the command returns an
error, and the last line of the log is `Poweroff err`, written after the call of
`poweroff`. -/
theorem poweroff_err_line_follows :
    ∃ rs, monitor "192.168.1.1" ⟨2, 3, 10⟩ deadlineTicks = some rs ∧
      rs.any StepResult.returned = true ∧
      (monitorLog "192.168.1.1" ⟨2, 3, 10⟩ deadlineTicks).getLast? = some Event.poweroffErr ∧
      ¬ ((monitorLog "192.168.1.1" ⟨2, 3, 10⟩ deadlineTicks).getLast? =
        some Event.systemctlPoweroff) :=
  ⟨monitorLoop ⟨2, 3, 10⟩ State.init deadlineTicks, by decide, by decide, by decide, by decide⟩

/-- C12, amended. In every run of `monitor` that terminates, the log is the start line followed
by the lines of the executed iterations in tick order, and it ends with the two steps of
`poweroff`, followed only by the `Poweroff err` line when the command returns an error;
nothing of `poweroff` occurs earlier in the log. -/
theorem poweroff_ends_log (addr : String) (cfg : Config) (ticks : List Tick)
    (rs : List StepResult) (hrun : monitor addr cfg ticks = some rs)
    (hterm : rs.any StepResult.returned = true) :
    monitorLog addr cfg ticks =
      Event.monitorStart addr cfg.intervalSec cfg.timeoutSec ::
        (rs.map StepResult.events).flatten ∧
    (∀ i r, rs[i]? = some r →
      ∃ ti, ticks[i]? = some ti ∧ r = tickStep cfg (stateBefore cfg State.init ticks i) ti) ∧
    ∃ before t, ticks[rs.length - 1]? = some t ∧
      monitorLog addr cfg ticks =
        before ++ [Event.poweroffTriggered, Event.systemctlPoweroff] ++
          (if t.poweroffFails then [Event.poweroffErr] else []) ∧
      Event.poweroffTriggered ∉ before ∧ Event.systemctlPoweroff ∉ before := by
  have hlog : monitorLog addr cfg ticks =
      Event.monitorStart addr cfg.intervalSec cfg.timeoutSec ::
        (rs.map StepResult.events).flatten := by
    unfold monitorLog
    rw [hrun]
  have hrs := monitor_eq_some addr cfg ticks rs hrun
  subst hrs
  refine ⟨hlog, ?_, ?_⟩
  · intro i r hi
    obtain ⟨ti, hti, hr, _⟩ := monitorLoop_get cfg State.init ticks i r hi
    exact ⟨ti, hti, hr⟩
  · obtain ⟨front, t, hcat, ht, hret, hfront⟩ :=
      monitorLoop_returned_last cfg State.init ticks hterm
    obtain ⟨hf, fs, hfs, hge⟩ := (tickStep_returned_iff cfg _ t).2.mp hret
    have hev := tickStep_cross cfg _ t fs hf hfs hge
    have hlen : (monitorLoop cfg State.init ticks).length - 1 = front.length := by
      rw [hcat]; simp
    refine ⟨Event.monitorStart addr cfg.intervalSec cfg.timeoutSec ::
        ((front.map StepResult.events).flatten ++ pingErrLog t ++
          [Event.progress (elapsedSeconds t.now fs) cfg.timeoutSec]), t, ?_, ?_, ?_, ?_⟩
    · rw [hlen]; exact ht
    · rw [hlog, hcat, hev]
      simp [pingErrLog]
    · have hfr : ∀ r, r ∈ front → Event.poweroffTriggered ∉ r.events := by
        intro r hr
        have hrm : r ∈ monitorLoop cfg State.init ticks := by
          rw [hcat]; exact List.mem_append_left _ hr
        obtain ⟨k, hk⟩ := List.getElem?_of_mem hrm
        obtain ⟨tk, _, hrk, _⟩ := monitorLoop_get cfg State.init ticks k r hk
        have := hfront r hr
        rw [hrk] at this ⊢
        exact (tickStep_not_returned_events cfg _ tk this).2
      have hp : Event.poweroffTriggered ∉ pingErrLog t := by
        unfold pingErrLog; split <;> simp
      simp only [List.mem_cons, List.mem_append, List.mem_flatten, List.mem_map,
        List.mem_singleton, not_or]
      refine ⟨by simp, ⟨⟨?_, hp⟩, by simp⟩⟩
      rintro ⟨l, ⟨r, hr, rfl⟩, hl⟩
      exact hfr r hr hl
    · have hfr : ∀ r, r ∈ front → Event.systemctlPoweroff ∉ r.events := by
        intro r hr
        have hrm : r ∈ monitorLoop cfg State.init ticks := by
          rw [hcat]; exact List.mem_append_left _ hr
        obtain ⟨k, hk⟩ := List.getElem?_of_mem hrm
        obtain ⟨tk, _, hrk, _⟩ := monitorLoop_get cfg State.init ticks k r hk
        have := hfront r hr
        rw [hrk] at this ⊢
        exact (tickStep_not_returned_events cfg _ tk this).1
      simp only [List.mem_cons, List.mem_append, List.mem_flatten, List.mem_map,
        List.mem_singleton, not_or]
      refine ⟨by simp, ⟨⟨?_, pingErrLog_no_poweroff t⟩, by simp⟩⟩
      rintro ⟨l, ⟨r, hr, rfl⟩, hl⟩
      exact hfr r hr hl

/-! ## Start-up never aborts -/

theorem getenvInt_no_abort_line (env : String → String) (key : String) (fallback : Int)
    (e : Event) (he : e ∈ (getenvInt env key fallback).2) : e.isAbortLine = false := by
  unfold getenvInt at he
  simp only [] at he
  split at he
  · simp at he
  · split at he
    · simp at he; subst he; rfl
    · split at he
      · simp at he; subst he; rfl
      · simp at he

theorem tickStep_no_abort_line (cfg : Config) (s : State) (t : Tick) (e : Event)
    (he : e ∈ (tickStep cfg s t).events) : e.isAbortLine = false := by
  by_cases hf : t.failed
  · cases hs : s.failSince with
    | none =>
      rw [tickStep_start cfg s t hf hs] at he
      cases hp : (ping t.run).2 <;> simp [hp] at he <;>
        rcases he with rfl | rfl <;> rfl
    | some fs =>
      by_cases hge : cfg.timeoutSec ≤ elapsedSeconds t.now fs
      · rw [tickStep_cross cfg s t fs hf hs hge] at he
        cases hp : (ping t.run).2 <;> cases hq : t.poweroffFails <;> simp [hp, hq] at he <;>
          rcases he with rfl | rfl | rfl | rfl | rfl <;> rfl
      · rw [tickStep_below cfg s t fs hf hs (not_le.mp hge)] at he
        split at he <;> cases hp : (ping t.run).2 <;> simp [hp] at he <;>
          rcases he with rfl | rfl <;> rfl
  · rw [tickStep_ok cfg s t hf] at he
    cases hp : (ping t.run).2 <;> simp [hp] at he <;>
      rcases he with rfl | rfl <;> rfl

theorem monitorLog_no_abort_line (addr : String) (cfg : Config) (ticks : List Tick)
    (e : Event) (he : e ∈ monitorLog addr cfg ticks) : e.isAbortLine = false := by
  unfold monitorLog at he
  cases hrun : monitor addr cfg ticks with
  | none => rw [hrun] at he; simp at he
  | some rs =>
    rw [hrun] at he
    have hrs := monitor_eq_some addr cfg ticks rs hrun
    subst hrs
    simp only [List.mem_cons, List.mem_flatten, List.mem_map] at he
    rcases he with rfl | ⟨l, ⟨r, hr, rfl⟩, hl⟩
    · rfl
    · obtain ⟨k, hk⟩ := List.getElem?_of_mem hr
      obtain ⟨tk, _, hrk, _⟩ := monitorLoop_get cfg State.init ticks k r hk
      rw [hrk] at hl
      exact tickStep_no_abort_line cfg _ tk e hl

/-- C17. For every environment the three durations `getenvInt` returns to `main` are positive
and the address is non-empty; `main` takes neither abort branch: it writes neither abort
line, does not exit with status 1, and calls `monitor`. -/
theorem startup_never_aborts (env : String → String) (ticks : List Tick) :
    0 < (getenvInt env "TARGET_INTERVAL" 5).1 ∧
    0 < (getenvInt env "TARGET_TIMEOUT" 120).1 ∧
    0 < (getenvInt env "TARGET_LOG_EVERY" 30).1 ∧
    (if env "TARGET_ADDR" = "" then "192.168.1.1" else env "TARGET_ADDR") ≠ "" ∧
    (main env ticks).monitorCall =
      some (if env "TARGET_ADDR" = "" then "192.168.1.1" else env "TARGET_ADDR",
        ⟨(getenvInt env "TARGET_INTERVAL" 5).1, (getenvInt env "TARGET_TIMEOUT" 120).1,
          (getenvInt env "TARGET_LOG_EVERY" 30).1⟩) ∧
    (main env ticks).exit ≠ some 1 ∧
    Event.invalidTimeValues ∉ (main env ticks).log ∧
    Event.addressEmpty ∉ (main env ticks).log := by
  have hi := getenvInt_pos env "TARGET_INTERVAL" 5 (by norm_num)
  have ht := getenvInt_pos env "TARGET_TIMEOUT" 120 (by norm_num)
  have hl := getenvInt_pos env "TARGET_LOG_EVERY" 30 (by norm_num)
  have haddr : (if env "TARGET_ADDR" = "" then "192.168.1.1" else env "TARGET_ADDR") ≠ "" := by
    split
    · decide
    · assumption
  obtain ⟨hcall, hexit, _⟩ := main_calls_monitor env ticks
  have hcond : ¬ ((getenvInt env "TARGET_INTERVAL" 5).1 ≤ 0 ∨
      (getenvInt env "TARGET_TIMEOUT" 120).1 ≤ 0 ∨
      (getenvInt env "TARGET_LOG_EVERY" 30).1 ≤ 0) := by
    intro h
    rcases h with h | h | h <;> omega
  have hlog : ∀ e, e ∈ (main env ticks).log → e.isAbortLine = false := by
    intro e he
    unfold main at he
    simp only [hcond, haddr, if_false] at he
    have henv : ∀ e, e ∈ (getenvInt env "TARGET_INTERVAL" 5).2 ++
        (getenvInt env "TARGET_TIMEOUT" 120).2 ++ (getenvInt env "TARGET_LOG_EVERY" 30).2 →
        e.isAbortLine = false := by
      intro e he
      simp only [List.mem_append] at he
      rcases he with (he | he) | he
      · exact getenvInt_no_abort_line env _ _ e he
      · exact getenvInt_no_abort_line env _ _ e he
      · exact getenvInt_no_abort_line env _ _ e he
    cases hrun : monitor (if env "TARGET_ADDR" = "" then "192.168.1.1" else env "TARGET_ADDR")
        ⟨(getenvInt env "TARGET_INTERVAL" 5).1, (getenvInt env "TARGET_TIMEOUT" 120).1,
          (getenvInt env "TARGET_LOG_EVERY" 30).1⟩ ticks with
    | none =>
      rw [hrun] at he
      exact henv e he
    | some rs =>
      rw [hrun] at he
      simp only [] at he
      rcases List.mem_append.mp he with h | h
      · exact henv e h
      · exact monitorLog_no_abort_line _ _ _ e h
  refine ⟨hi, ht, hl, haddr, hcall, hexit, ?_, ?_⟩
  · intro h
    have := hlog _ h
    simp [Event.isAbortLine] at this
  · intro h
    have := hlog _ h
    simp [Event.isAbortLine] at this

/-! ## Evenly spaced streaks, whatever `logEverySec` is -/

/-- Once a streak has started at tick `j0`, `failSince` holds the clock reading of that tick
for as long as the ticks keep failing. -/
theorem streak_failSince (cfg : Config) (s : State) (ts : List Tick) (j0 : Nat) (t0 : Int)
    (hnone : (stateBefore cfg s ts j0).failSince = none)
    (hstreak : ∀ j tj, ts[j0 + j]? = some tj →
      tj.failed ∧ tj.now = t0 + (j : Int) * cfg.intervalSec * 1000000000)
    (j : Nat) (hj : j0 + j < ts.length) :
    (stateBefore cfg s ts (j0 + j + 1)).failSince = some t0 := by
  induction j with
  | zero =>
    have ht : ts[j0 + 0]? = some ts[j0 + 0] := List.getElem?_eq_getElem hj
    obtain ⟨hf, hnow⟩ := hstreak 0 _ ht
    have h1 : (ping ts[j0 + 0].run).1 = false := hf
    have hnone0 : (stateBefore cfg s ts (j0 + 0)).failSince = none := hnone
    rw [stateBefore_succ cfg s ts (j0 + 0) _ ht, tickStep_failSince, h1, hnone0, hnow]
    simp
  | succ j ih =>
    have ht : ts[j0 + (j + 1)]? = some ts[j0 + (j + 1)] := List.getElem?_eq_getElem hj
    obtain ⟨hf, _⟩ := hstreak (j + 1) _ ht
    have h1 : (ping ts[j0 + (j + 1)].run).1 = false := hf
    have hprev : (stateBefore cfg s ts (j0 + (j + 1))).failSince = some t0 := by
      rw [show j0 + (j + 1) = j0 + j + 1 by omega]
      exact ih (by omega)
    rw [stateBefore_succ cfg s ts (j0 + (j + 1)) _ ht, tickStep_failSince, h1, hprev]
    simp

/-- In such a streak every tick up to and including the first one whose elapsed seconds reach
the timeout is executed. -/
theorem streak_executed_any (cfg : Config) (s : State) (ts : List Tick) (j0 : Nat) (t0 : Int)
    (hI : 0 < cfg.intervalSec)
    (hnone : (stateBefore cfg s ts j0).failSince = none)
    (hbefore : ∀ k tk, k < j0 → ts[k]? = some tk →
      (tickStep cfg (stateBefore cfg s ts k) tk).returned = false)
    (hstreak : ∀ j tj, ts[j0 + j]? = some tj →
      tj.failed ∧ tj.now = t0 + (j : Int) * cfg.intervalSec * 1000000000)
    (j : Nat) (tj : Tick) (htj : ts[j0 + j]? = some tj)
    (hlt : j = 0 ∨ ((j : Int) - 1) * cfg.intervalSec < cfg.timeoutSec) :
    (monitorLoop cfg s ts)[j0 + j]? = some (tickStep cfg (stateBefore cfg s ts (j0 + j)) tj) ∧
    ∀ i ti, i < j → ts[j0 + i]? = some ti →
      (tickStep cfg (stateBefore cfg s ts (j0 + i)) ti).returned = false := by
  have hstep : ∀ i ti, i < j → ts[j0 + i]? = some ti →
      (tickStep cfg (stateBefore cfg s ts (j0 + i)) ti).returned = false := by
    intro i ti hij hkt
    have hjpos : ((j : Int) - 1) * cfg.intervalSec < cfg.timeoutSec := by
      rcases hlt with h | h
      · omega
      · exact h
    obtain ⟨hf, hnow⟩ := hstreak i ti hkt
    have hklen : j0 + i < ts.length := by
      by_contra hcon
      rw [List.getElem?_eq_none (by omega)] at hkt
      simp at hkt
    cases i with
    | zero =>
      have hnone0 : (stateBefore cfg s ts (j0 + 0)).failSince = none := hnone
      rw [tickStep_start cfg _ ti hf hnone0]
    | succ i =>
      have hile : ((i + 1 : Nat) : Int) ≤ (j : Int) - 1 := by
        have : (i + 1 : Nat) ≤ j - 1 := by omega
        omega
      have hi1 : ((i + 1 : Nat) : Int) * cfg.intervalSec < cfg.timeoutSec :=
        lt_of_le_of_lt (mul_le_mul_of_nonneg_right hile (le_of_lt hI)) hjpos
      have hfs : (stateBefore cfg s ts (j0 + (i + 1))).failSince = some t0 := by
        rw [show j0 + (i + 1) = j0 + i + 1 by omega]
        exact streak_failSince cfg s ts j0 t0 hnone hstreak i (by omega)
      apply tickStep_below_returned cfg _ ti t0 hf hfs
      rw [hnow, elapsedSeconds_spaced]
      exact hi1
  refine ⟨?_, hstep⟩
  apply monitorLoop_get_of cfg s ts (j0 + j) tj htj
  intro k tk hk hkt
  by_cases hk0 : k < j0
  · exact hbefore k tk hk0 hkt
  · obtain ⟨i, rfl⟩ : ∃ i, k = j0 + i := ⟨k - j0, by omega⟩
    exact hstep i tk (by omega) hkt

/-- Rounding up: `ceilDiv a b` is the least `n` with `a ≤ n * b`. -/
theorem ceilDiv_spec (a b : Int) (hb : 0 < b) :
    a ≤ ceilDiv a b * b ∧ (ceilDiv a b - 1) * b < a := by
  unfold ceilDiv
  have h1 : (a + b - 1) / b * b ≤ a + b - 1 := Int.ediv_mul_le _ (ne_of_gt hb)
  have h2 : a + b - 1 < ((a + b - 1) / b + 1) * b := Int.lt_ediv_add_one_mul_self _ hb
  constructor
  · nlinarith
  · nlinarith

/-- C16. Let `intervalSec` and `timeoutSec` be positive (`logEverySec` is arbitrary), the
ticker be created, and every tick fail, tick number `j` (from 0) `j * intervalSec` seconds
after the first.  With `N = ceil(timeoutSec / intervalSec)`, `monitor` calls `poweroff` in
iteration `N` (tick number `N + 1` counting from 1) and in no earlier one; `N + 1` iterations
are executed, and the call comes `N * intervalSec` seconds after the first failed probe. -/
theorem poweroff_at_ceil (addr : String) (cfg : Config) (ticks : List Tick)
    (rs : List StepResult) (t0 : Int) (N : Nat)
    (hI : 0 < cfg.intervalSec) (hT : 0 < cfg.timeoutSec)
    (hrun : monitor addr cfg ticks = some rs)
    (hstreak : ∀ (j : Nat) (tj : Tick), ticks[j]? = some tj →
      tj.failed ∧ tj.now = t0 + (j : Int) * cfg.intervalSec * 1000000000)
    (hN : (N : Int) = ceilDiv cfg.timeoutSec cfg.intervalSec) (hlen : N < ticks.length) :
    rs.length = N + 1 ∧
    (∃ r tN, rs[N]? = some r ∧ ticks[N]? = some tN ∧ invokesPoweroff r ∧ r.returned = true ∧
      elapsedSeconds tN.now t0 = (N : Int) * cfg.intervalSec) ∧
    (∀ k rk, k < N → rs[k]? = some rk → ¬ invokesPoweroff rk) := by
  have hrs := monitor_eq_some addr cfg ticks rs hrun
  subst hrs
  obtain ⟨hup, hlow⟩ := ceilDiv_spec cfg.timeoutSec cfg.intervalSec hI
  rw [← hN] at hup hlow
  have hNpos : 1 ≤ N := by
    by_contra hcon
    have h0 : N = 0 := by omega
    rw [h0] at hup
    simp at hup
    omega
  have hnone : (stateBefore cfg State.init ticks 0).failSince = none := by
    rw [stateBefore_zero]; rfl
  have hbefore : ∀ k tk, k < 0 → ticks[k]? = some tk →
      (tickStep cfg (stateBefore cfg State.init ticks k) tk).returned = false := by
    intro k tk hk; omega
  have hstreak0 : ∀ (j : Nat) (tj : Tick), ticks[0 + j]? = some tj →
      tj.failed ∧ tj.now = t0 + (j : Int) * cfg.intervalSec * 1000000000 := by
    intro j tj h
    rw [Nat.zero_add] at h
    exact hstreak j tj h
  have htN : ticks[0 + N]? = some ticks[N] := by
    rw [Nat.zero_add]; exact List.getElem?_eq_getElem hlen
  obtain ⟨hex, hno⟩ := streak_executed_any cfg State.init ticks 0 t0 hI hnone hbefore hstreak0
    N ticks[N] htN (Or.inr hlow)
  rw [Nat.zero_add] at hex htN
  obtain ⟨hf, hnow⟩ := hstreak N ticks[N] htN
  have hfs : (stateBefore cfg State.init ticks N).failSince = some t0 := by
    have := streak_failSince cfg State.init ticks 0 t0 hnone hstreak0 (N - 1) (by omega)
    rw [show 0 + (N - 1) + 1 = N by omega] at this
    exact this
  have hel : elapsedSeconds ticks[N].now t0 = (N : Int) * cfg.intervalSec := by
    rw [hnow]; exact elapsedSeconds_spaced t0 cfg.intervalSec N
  have hcross := tickStep_cross cfg _ ticks[N] t0 hf hfs (by rw [hel]; exact hup)
  have hret : (tickStep cfg (stateBefore cfg State.init ticks N) ticks[N]).returned = true := by
    rw [hcross]
  refine ⟨monitorLoop_length_of_returned cfg State.init ticks N _ hex hret,
    ⟨_, ticks[N], hex, htN, (tickStep_returned_iff cfg _ _).1.mp hret, hret, hel⟩, ?_⟩
  intro k rk hk hrk hinv
  obtain ⟨tk, htk, hrkeq, _⟩ := monitorLoop_get cfg State.init ticks k rk hrk
  subst hrkeq
  have h1 := hno k tk hk (by rw [Nat.zero_add]; exact htk)
  rw [Nat.zero_add] at h1
  have h2 := (tickStep_returned_iff cfg (stateBefore cfg State.init ticks k) tk).1.mpr hinv
  rw [h1] at h2
  exact Bool.false_ne_true h2

/-- With `logEverySec ≤ intervalSec` the milestone is reached again at every tick of a
streak: after the tick at elapsed `j * intervalSec` (below the timeout) `logSkipped` is
`j`. -/
theorem streak_state_every_tick (cfg : Config) (s : State) (ts : List Tick) (j0 : Nat)
    (t0 : Int) (hI : 0 < cfg.intervalSec) (hLI : cfg.logEverySec ≤ cfg.intervalSec)
    (hnone : (stateBefore cfg s ts j0).failSince = none)
    (hstreak : ∀ j tj, ts[j0 + j]? = some tj →
      tj.failed ∧ tj.now = t0 + (j : Int) * cfg.intervalSec * 1000000000)
    (j : Nat) (hj : j0 + j < ts.length)
    (hlt : (j : Int) * cfg.intervalSec < cfg.timeoutSec ∨ j = 0) :
    stateBefore cfg s ts (j0 + j + 1) = ⟨some t0, (j : Int)⟩ := by
  induction j with
  | zero =>
    have ht : ts[j0 + 0]? = some ts[j0 + 0] := List.getElem?_eq_getElem hj
    obtain ⟨hf, hnow⟩ := hstreak 0 _ ht
    have hnone0 : (stateBefore cfg s ts (j0 + 0)).failSince = none := hnone
    rw [stateBefore_succ cfg s ts (j0 + 0) _ ht, tickStep_start cfg _ _ hf hnone0, hnow]
    simp
  | succ j ih =>
    have hlt1 : ((j + 1 : Nat) : Int) * cfg.intervalSec < cfg.timeoutSec := by
      rcases hlt with h | h
      · exact h
      · omega
    have ht : ts[j0 + (j + 1)]? = some ts[j0 + (j + 1)] := List.getElem?_eq_getElem hj
    obtain ⟨hf, hnow⟩ := hstreak (j + 1) _ ht
    have hel : elapsedSeconds ts[j0 + (j + 1)].now t0 =
        ((j + 1 : Nat) : Int) * cfg.intervalSec := by
      rw [hnow]; exact elapsedSeconds_spaced t0 cfg.intervalSec (j + 1)
    have hfs0 := streak_failSince cfg s ts j0 t0 hnone hstreak j (by omega)
    have hfs : (stateBefore cfg s ts (j0 + (j + 1))).failSince = some t0 := by
      rw [show j0 + (j + 1) = j0 + j + 1 by omega]; exact hfs0
    have hmile : ((j : Int) + 1) * cfg.logEverySec ≤ ((j + 1 : Nat) : Int) * cfg.intervalSec := by
      push_cast
      exact mul_le_mul_of_nonneg_left hLI (by omega)
    by_cases hcross : cfg.timeoutSec ≤ (j : Int) * cfg.intervalSec
    · exfalso
      have h1 : ((j + 1 : Nat) : Int) * cfg.intervalSec =
          (j : Int) * cfg.intervalSec + cfg.intervalSec := by push_cast; ring
      omega
    · have hprev := ih (by omega) (Or.inl (not_le.mp hcross))
      have hls : (stateBefore cfg s ts (j0 + (j + 1))).logSkipped = (j : Int) := by
        rw [show j0 + (j + 1) = j0 + j + 1 by omega, hprev]
      rw [stateBefore_succ cfg s ts (j0 + (j + 1)) _ ht,
        tickStep_below cfg _ _ t0 hf hfs (by rw [hel]; exact hlt1), hel, hls, if_pos hmile]
      push_cast
      rfl

/-- C18. Let `0 < logEverySec ≤ intervalSec` and let a failure streak start in an executed
iteration `j0`, its ticks exactly `intervalSec` apart and all failing.  Then every executed
tick after the streak-start tick writes exactly one progress line, and after the `j`-th of
them `logSkipped` is `j`: the lines come once per tick. -/
theorem progress_every_tick (addr : String) (cfg : Config) (ticks : List Tick)
    (rs : List StepResult) (j0 : Nat) (t0 : Int) (r0 : StepResult)
    (hL : 0 < cfg.logEverySec) (hLI : cfg.logEverySec ≤ cfg.intervalSec)
    (hrun : monitor addr cfg ticks = some rs)
    (hstart : rs[j0]? = some r0) (hts : Event.timerStarted ∈ r0.events)
    (hstreak : ∀ (j : Nat) (tj : Tick), ticks[j0 + j]? = some tj →
      tj.failed ∧ tj.now = t0 + (j : Int) * cfg.intervalSec * 1000000000)
    (j : Nat) (tj : Tick) (hj : 1 ≤ j) (htj : ticks[j0 + j]? = some tj)
    (hprev : ((j : Int) - 1) * cfg.intervalSec < cfg.timeoutSec) :
    ∃ r, rs[j0 + j]? = some r ∧
      r.events.filter Event.isProgress =
        [Event.progress ((j : Int) * cfg.intervalSec) cfg.timeoutSec] ∧
      r.state.logSkipped = (j : Int) := by
  have hrs := monitor_eq_some addr cfg ticks rs hrun
  subst hrs
  have hI : 0 < cfg.intervalSec := lt_of_lt_of_le hL hLI
  obtain ⟨tj0, _, hr0, hbefore⟩ := monitorLoop_get cfg State.init ticks j0 r0 hstart
  subst hr0
  obtain ⟨_, hnone⟩ := timerStarted_mem cfg _ tj0 hts
  obtain ⟨hex, _⟩ := streak_executed_any cfg State.init ticks j0 t0 hI hnone hbefore hstreak
    j tj htj (Or.inr hprev)
  obtain ⟨i, rfl⟩ : ∃ i, j = i + 1 := ⟨j - 1, by omega⟩
  have hi0 : (i : Int) * cfg.intervalSec < cfg.timeoutSec := by
    have : (((i + 1 : Nat) : Int) - 1) = (i : Int) := by push_cast; ring
    rw [this] at hprev
    exact hprev
  have hlen : j0 + (i + 1) < ticks.length := by
    by_contra hcon
    rw [List.getElem?_eq_none (by omega)] at htj
    simp at htj
  have hst := streak_state_every_tick cfg State.init ticks j0 t0 hI hLI hnone hstreak i
    (by omega) (Or.inl hi0)
  have hst1 : stateBefore cfg State.init ticks (j0 + (i + 1)) = ⟨some t0, (i : Int)⟩ := by
    rw [show j0 + (i + 1) = j0 + i + 1 by omega, hst]
  obtain ⟨hf, hnow⟩ := hstreak (i + 1) tj htj
  have hel : elapsedSeconds tj.now t0 = ((i + 1 : Nat) : Int) * cfg.intervalSec := by
    rw [hnow]; exact elapsedSeconds_spaced t0 cfg.intervalSec (i + 1)
  have hfs : (stateBefore cfg State.init ticks (j0 + (i + 1))).failSince = some t0 := by
    rw [hst1]
  have hls : (stateBefore cfg State.init ticks (j0 + (i + 1))).logSkipped = (i : Int) := by
    rw [hst1]
  have hmile : ((i : Int) + 1) * cfg.logEverySec ≤ ((i + 1 : Nat) : Int) * cfg.intervalSec := by
    push_cast
    exact mul_le_mul_of_nonneg_left hLI (by omega)
  refine ⟨_, hex, ?_⟩
  by_cases hge : cfg.timeoutSec ≤ ((i + 1 : Nat) : Int) * cfg.intervalSec
  · have hcross := tickStep_cross cfg _ tj t0 hf hfs (by rw [hel]; exact hge)
    rw [hel, hls] at hcross
    rw [hcross]
    refine ⟨?_, by push_cast; rfl⟩
    cases (ping tj.run).2 <;> cases tj.poweroffFails <;> simp [List.filter, Event.isProgress]
  · have hstep := tickStep_below cfg _ tj t0 hf hfs (by rw [hel]; exact not_le.mp hge)
    rw [hel, hls, if_pos hmile] at hstep
    rw [hstep]
    refine ⟨?_, by push_cast; rfl⟩
    cases (ping tj.run).2 <;> simp [List.filter, Event.isProgress]

/-- A tick of such a streak whose elapsed seconds are below the timeout, when `logEverySec`
is a multiple of `intervalSec`: it is executed, it writes a progress line exactly when its
elapsed seconds are a multiple of `logEverySec`, and `logSkipped` is then the quotient. -/
theorem streak_below_tick (cfg : Config) (s : State) (ts : List Tick) (j0 : Nat) (t0 : Int)
    (hI : 0 < cfg.intervalSec) (hL : 0 < cfg.logEverySec)
    (hdvd : cfg.intervalSec ∣ cfg.logEverySec)
    (hnone : (stateBefore cfg s ts j0).failSince = none)
    (hbefore : ∀ k tk, k < j0 → ts[k]? = some tk →
      (tickStep cfg (stateBefore cfg s ts k) tk).returned = false)
    (hstreak : ∀ (j : Nat) (tj : Tick), ts[j0 + j]? = some tj →
      tj.failed ∧ tj.now = t0 + (j : Int) * cfg.intervalSec * 1000000000)
    (j : Nat) (tj : Tick) (hj : 1 ≤ j) (htj : ts[j0 + j]? = some tj)
    (hlt : (j : Int) * cfg.intervalSec < cfg.timeoutSec) :
    ∃ r, (monitorLoop cfg s ts)[j0 + j]? = some r ∧
      r.events.filter Event.isProgress =
        (if cfg.logEverySec ∣ (j : Int) * cfg.intervalSec then
          [Event.progress ((j : Int) * cfg.intervalSec) cfg.timeoutSec] else []) ∧
      r.state.logSkipped = ((j : Int) * cfg.intervalSec) / cfg.logEverySec := by
  have hIL : cfg.intervalSec ≤ cfg.logEverySec := Int.le_of_dvd hL hdvd
  obtain ⟨i, rfl⟩ : ∃ i, j = i + 1 := ⟨j - 1, by omega⟩
  have hcast : ((i + 1 : Nat) : Int) * cfg.intervalSec =
      (i : Int) * cfg.intervalSec + cfg.intervalSec := by push_cast; ring
  have hi0 : (i : Int) * cfg.intervalSec < cfg.timeoutSec := by
    rw [hcast] at hlt; omega
  obtain ⟨hex, _⟩ := streak_executed_any cfg s ts j0 t0 hI hnone hbefore hstreak
    (i + 1) tj htj (Or.inr (by push_cast; simpa using hi0))
  have hlen : j0 + (i + 1) < ts.length := by
    by_contra hcon
    rw [List.getElem?_eq_none (by omega)] at htj
    simp at htj
  have hst := streak_state cfg s ts j0 t0 hI hIL hnone hstreak i (by omega) (Or.inl hi0)
  have hst1 : stateBefore cfg s ts (j0 + (i + 1)) =
      ⟨some t0, ((i : Int) * cfg.intervalSec) / cfg.logEverySec⟩ := by
    rw [show j0 + (i + 1) = j0 + i + 1 by omega, hst]
  obtain ⟨hf, hnow⟩ := hstreak (i + 1) tj htj
  have hel : elapsedSeconds tj.now t0 = ((i + 1 : Nat) : Int) * cfg.intervalSec := by
    rw [hnow]; exact elapsedSeconds_spaced t0 cfg.intervalSec (i + 1)
  have hfs : (stateBefore cfg s ts (j0 + (i + 1))).failSince = some t0 := by rw [hst1]
  have hls : (stateBefore cfg s ts (j0 + (i + 1))).logSkipped =
      ((i : Int) * cfg.intervalSec) / cfg.logEverySec := by rw [hst1]
  have hstep := tickStep_below cfg _ tj t0 hf hfs (by rw [hel]; exact hlt)
  rw [hls, hel] at hstep
  have hms := milestone_iff_dvd ((i : Int) * cfg.intervalSec) cfg.intervalSec cfg.logEverySec
    hI hdvd hL (Dvd.intro_left _ rfl)
  have hdiv := ediv_step ((i : Int) * cfg.intervalSec) cfg.intervalSec cfg.logEverySec hI hIL
  rw [← hcast] at hms hdiv
  refine ⟨_, hex, ?_, ?_⟩
  · rw [hstep]
    by_cases hm : (↑i * cfg.intervalSec / cfg.logEverySec + 1) * cfg.logEverySec ≤
        ((i + 1 : Nat) : Int) * cfg.intervalSec
    · rw [if_pos hm, if_pos (hms.mp hm)]
      cases (ping tj.run).2 <;> simp [List.filter, Event.isProgress]
    · rw [if_neg hm, if_neg (fun h => hm (hms.mpr h))]
      cases (ping tj.run).2 <;> simp [List.filter, Event.isProgress]
  · rw [hstep, hdiv]
    split <;> rfl

/-- C15. Let `logEverySec = m * intervalSec` with `m ≥ 1` and `intervalSec > 0`, and let a
failure streak start in an executed iteration `j0`, its ticks at elapsed
`0, intervalSec, 2 * intervalSec, ...`, all failing.  For every `k ≥ 1` with
`k * logEverySec < timeoutSec` the tick at elapsed `k * logEverySec` writes a progress line,
the `k`-th of the streak (`logSkipped` becomes `k`); and a tick below the timeout whose
elapsed seconds are not a multiple of `logEverySec` writes none.  Nothing is assumed about
`timeoutSec`. -/
theorem kth_progress_line (addr : String) (cfg : Config) (ticks : List Tick)
    (rs : List StepResult) (j0 : Nat) (t0 : Int) (r0 : StepResult) (m : Nat)
    (hI : 0 < cfg.intervalSec) (hm : 1 ≤ m)
    (hLm : cfg.logEverySec = (m : Int) * cfg.intervalSec)
    (hrun : monitor addr cfg ticks = some rs)
    (hstart : rs[j0]? = some r0) (hts : Event.timerStarted ∈ r0.events)
    (hstreak : ∀ (j : Nat) (tj : Tick), ticks[j0 + j]? = some tj →
      tj.failed ∧ tj.now = t0 + (j : Int) * cfg.intervalSec * 1000000000) :
    (∀ (k : Nat) (tk : Tick), 1 ≤ k → (k : Int) * cfg.logEverySec < cfg.timeoutSec →
      ticks[j0 + k * m]? = some tk →
      ∃ r, rs[j0 + k * m]? = some r ∧
        r.events.filter Event.isProgress =
          [Event.progress ((k : Int) * cfg.logEverySec) cfg.timeoutSec] ∧
        r.state.logSkipped = (k : Int)) ∧
    (∀ (j : Nat) (tj : Tick), 1 ≤ j → (j : Int) * cfg.intervalSec < cfg.timeoutSec →
      ¬ cfg.logEverySec ∣ (j : Int) * cfg.intervalSec →
      ticks[j0 + j]? = some tj →
      ∃ r, rs[j0 + j]? = some r ∧ r.events.filter Event.isProgress = []) := by
  have hrs := monitor_eq_some addr cfg ticks rs hrun
  subst hrs
  have hL : 0 < cfg.logEverySec := by
    rw [hLm]
    exact mul_pos (by exact_mod_cast hm) hI
  have hdvd : cfg.intervalSec ∣ cfg.logEverySec := ⟨(m : Int), by rw [hLm]; ring⟩
  obtain ⟨tj0, _, hr0, hbefore⟩ := monitorLoop_get cfg State.init ticks j0 r0 hstart
  subst hr0
  obtain ⟨_, hnone⟩ := timerStarted_mem cfg _ tj0 hts
  constructor
  · intro k tk hk hlt htk
    have hkm : ((k * m : Nat) : Int) * cfg.intervalSec = (k : Int) * cfg.logEverySec := by
      rw [hLm]; push_cast; ring
    have hpos : 1 ≤ k * m := Nat.one_le_iff_ne_zero.mpr (Nat.mul_ne_zero (by omega) (by omega))
    obtain ⟨r, hr, hev, hls⟩ := streak_below_tick cfg State.init ticks j0 t0 hI hL hdvd hnone
      hbefore hstreak (k * m) tk hpos htk (by rw [hkm]; exact hlt)
    rw [hkm] at hev hls
    refine ⟨r, hr, ?_, ?_⟩
    · rw [hev, if_pos (Dvd.intro_left _ rfl)]
    · rw [hls]
      exact Int.mul_ediv_cancel _ (ne_of_gt hL)
  · intro j tj hj hlt hnd htj
    obtain ⟨r, hr, hev, _⟩ := streak_below_tick cfg State.init ticks j0 t0 hI hL hdvd hnone
      hbefore hstreak j tj hj htj hlt
    exact ⟨r, hr, by rw [hev, if_neg hnd]⟩

/-! ## The later claims at concrete inputs -/

/-- C11 at `TARGET_INTERVAL="10"` (accepted) and at `TARGET_TIMEOUT="0"` (rejected). -/
theorem getenvInt_cases_witness :
    atoi (envIntervalTen "TARGET_INTERVAL") = some 10 ∧ (0 : Int) < 10 ∧
    getenvInt envIntervalTen "TARGET_INTERVAL" 5 = (10, []) ∧
    envIntervalTen "TARGET_TIMEOUT" = "" ∧
    getenvInt envIntervalTen "TARGET_TIMEOUT" 120 = (120, []) ∧
    envTimeoutZero "TARGET_TIMEOUT" ≠ "" ∧
    getenvInt envTimeoutZero "TARGET_TIMEOUT" 120 =
      (120, [Event.invalidEnv "TARGET_TIMEOUT" (envTimeoutZero "TARGET_TIMEOUT") 120]) :=
  ⟨by decide, by decide,
    (getenvInt_cases envIntervalTen "TARGET_INTERVAL" 5).2.1 10 (by decide) (by decide),
    by decide,
    (getenvInt_cases envIntervalTen "TARGET_TIMEOUT" 120).1 (by decide),
    by decide,
    (getenvInt_cases envTimeoutZero "TARGET_TIMEOUT" 120).2.2.1 (by decide)
      (fun n hn => by
        have h0 : atoi (envTimeoutZero "TARGET_TIMEOUT") = some 0 := by decide
        rw [h0] at hn
        have : (0 : Int) = n := Option.some.inj hn
        omega)⟩

/-- C12, amended, on `deadlineTicks`, where the command returns an error. -/
theorem poweroff_ends_log_witness :
    monitor "192.168.1.1" ⟨2, 3, 10⟩ deadlineTicks =
      some (monitorLoop ⟨2, 3, 10⟩ State.init deadlineTicks) ∧
    (monitorLoop ⟨2, 3, 10⟩ State.init deadlineTicks).any StepResult.returned = true ∧
    ∃ before t,
      deadlineTicks[(monitorLoop ⟨2, 3, 10⟩ State.init deadlineTicks).length - 1]? = some t ∧
      monitorLog "192.168.1.1" ⟨2, 3, 10⟩ deadlineTicks =
        before ++ [Event.poweroffTriggered, Event.systemctlPoweroff] ++
          (if t.poweroffFails then [Event.poweroffErr] else []) ∧
      Event.poweroffTriggered ∉ before ∧ Event.systemctlPoweroff ∉ before :=
  ⟨by decide, by decide,
    (poweroff_ends_log "192.168.1.1" ⟨2, 3, 10⟩ deadlineTicks
      (monitorLoop ⟨2, 3, 10⟩ State.init deadlineTicks) (by decide) (by decide)).2.2⟩

/-- C14 at a failing tick five seconds into a streak. -/
theorem failSince_frame_witness :
    (⟨some 5000000000, 0⟩ : State).failSince = some 5000000000 ∧
    (⟨10000000000, RunResult.otherError, false⟩ : Tick).failed ∧
    (tickStep ⟨5, 120, 30⟩ ⟨some 5000000000, 0⟩
      ⟨10000000000, RunResult.otherError, false⟩).state.failSince = some 5000000000 :=
  ⟨rfl, by decide,
    (failSince_frame ⟨5, 120, 30⟩ ⟨some 5000000000, 0⟩
      ⟨10000000000, RunResult.otherError, false⟩).1 5000000000 rfl (by decide)⟩

/-- C15 at the defaults (`logEverySec = 6 * intervalSec`): the second progress line is
written 60 seconds into the streak. -/
theorem kth_progress_line_witness :
    (0 : Int) < 5 ∧ 1 ≤ 6 ∧ (30 : Int) = ((6 : Nat) : Int) * 5 ∧
    monitor "192.168.1.1" ⟨5, 120, 30⟩ (spacedFailing 5000000000 5 30) =
      some (monitorLoop ⟨5, 120, 30⟩ State.init (spacedFailing 5000000000 5 30)) ∧
    ((2 : Nat) : Int) * 30 < 120 ∧
    ∃ r, (monitorLoop ⟨5, 120, 30⟩ State.init (spacedFailing 5000000000 5 30))[0 + 2 * 6]? =
        some r ∧
      r.events.filter Event.isProgress = [Event.progress (((2 : Nat) : Int) * 30) 120] ∧
      r.state.logSkipped = ((2 : Nat) : Int) :=
  ⟨by decide, by decide, by decide, by decide, by decide,
    (kth_progress_line "192.168.1.1" ⟨5, 120, 30⟩ (spacedFailing 5000000000 5 30)
      (monitorLoop ⟨5, 120, 30⟩ State.init (spacedFailing 5000000000 5 30)) 0 5000000000
      (tickStep ⟨5, 120, 30⟩ State.init ⟨5000000000, RunResult.otherError, false⟩) 6
      (by decide) (by decide) (by decide) (by decide) (by decide) (by decide)
      (fun j tj h => (spacedFailing_get 5000000000 5 30 (0 + j) tj h).imp id
        (fun h2 => by rw [h2]; push_cast; ring))).1 2
      ⟨65000000000, RunResult.otherError, false⟩ (by decide) (by decide) (by decide)⟩

/-- C16 at `intervalSec = 5`, `timeoutSec = 12`: `ceil(12 / 5) = 3`, so `poweroff` is called
in iteration 3, the fourth tick, 15 seconds after the first failed probe. -/
theorem poweroff_at_ceil_witness :
    (0 : Int) < 5 ∧ (0 : Int) < 12 ∧ ((3 : Nat) : Int) = ceilDiv 12 5 ∧
    monitor "192.168.1.1" ⟨5, 12, 30⟩ (spacedFailing 5000000000 5 8) =
      some (monitorLoop ⟨5, 12, 30⟩ State.init (spacedFailing 5000000000 5 8)) ∧
    (monitorLoop ⟨5, 12, 30⟩ State.init (spacedFailing 5000000000 5 8)).length = 3 + 1 ∧
    (∃ r tN, (monitorLoop ⟨5, 12, 30⟩ State.init (spacedFailing 5000000000 5 8))[3]? = some r ∧
      (spacedFailing 5000000000 5 8)[3]? = some tN ∧ invokesPoweroff r ∧ r.returned = true ∧
      elapsedSeconds tN.now 5000000000 = ((3 : Nat) : Int) * 5) ∧
    (∀ k rk, k < 3 →
      (monitorLoop ⟨5, 12, 30⟩ State.init (spacedFailing 5000000000 5 8))[k]? = some rk →
      ¬ invokesPoweroff rk) :=
  ⟨by decide, by decide, by decide, by decide,
    poweroff_at_ceil "192.168.1.1" ⟨5, 12, 30⟩ (spacedFailing 5000000000 5 8)
      (monitorLoop ⟨5, 12, 30⟩ State.init (spacedFailing 5000000000 5 8)) 5000000000 3
      (by decide) (by decide) (by decide)
      (fun j tj h => spacedFailing_get 5000000000 5 8 j tj h) (by decide) (by decide)⟩

/-- C18 at `intervalSec = 5`, `logEverySec = 2`: the third tick after the start of the
streak writes the third progress line. -/
theorem progress_every_tick_witness :
    (0 : Int) < 2 ∧ (2 : Int) ≤ 5 ∧
    monitor "192.168.1.1" ⟨5, 120, 2⟩ (spacedFailing 5000000000 5 10) =
      some (monitorLoop ⟨5, 120, 2⟩ State.init (spacedFailing 5000000000 5 10)) ∧
    ∃ r, (monitorLoop ⟨5, 120, 2⟩ State.init (spacedFailing 5000000000 5 10))[0 + 3]? =
        some r ∧
      r.events.filter Event.isProgress = [Event.progress (((3 : Nat) : Int) * 5) 120] ∧
      r.state.logSkipped = ((3 : Nat) : Int) :=
  ⟨by decide, by decide, by decide,
    progress_every_tick "192.168.1.1" ⟨5, 120, 2⟩ (spacedFailing 5000000000 5 10)
      (monitorLoop ⟨5, 120, 2⟩ State.init (spacedFailing 5000000000 5 10)) 0 5000000000
      (tickStep ⟨5, 120, 2⟩ State.init ⟨5000000000, RunResult.otherError, false⟩)
      (by decide) (by decide) (by decide) (by decide) (by decide)
      (fun j tj h => (spacedFailing_get 5000000000 5 10 (0 + j) tj h).imp id
        (fun h2 => by rw [h2]; push_cast; ring))
      3 ⟨20000000000, RunResult.otherError, false⟩ (by decide) (by decide) (by decide)⟩

/-! ## Streaks of `2^24` seconds and more -/

/-- Just below `2^24` seconds the nanoseconds do not reach the next second (see
`elapsedSeconds_exact`); at `2^24` seconds the sum `float64(sec) + float64(nsec)/1e9` rounds
up to it. -/
theorem elapsedSeconds_rounding :
    elapsedSeconds 16777215999999999 0 = 16777215 ∧
    elapsedSeconds 16777216999999999 0 = 16777217 ∧
    elapsedSeconds 16777221999999999 5000000000 = 16777217 ∧
    Int.tdiv (16777221999999999 - 5000000000) 1000000000 = 16777216 := by
  decide

/-- In a streak shorter than `2^24` seconds `poweroff` is called only when the whole seconds
elapsed since the streak-start tick have reached `timeoutSec`. -/
theorem poweroff_whole_seconds_short_streak (addr : String) (cfg : Config)
    (ticks : List Tick) (rs : List StepResult) (i : Nat) (r : StepResult)
    (hrun : monitor addr cfg ticks = some rs) (hi : rs[i]? = some r)
    (hp : invokesPoweroff r) :
    ∃ j tj ti, j < i ∧ ticks[j]? = some tj ∧ ticks[i]? = some ti ∧
      (stateBefore cfg State.init ticks i).failSince = some tj.now ∧
      (tj.now ≤ ti.now → ti.now - tj.now < 16777216000000000 →
        cfg.timeoutSec ≤ Int.tdiv (ti.now - tj.now) 1000000000) := by
  obtain ⟨j, tj, rj, ti, hj, htj, _, hti, _, _, hfs, _, _, hge⟩ :=
    poweroff_only_after_timeout addr cfg ticks rs i r hrun hi hp
  refine ⟨j, tj, ti, hj, htj, hti, hfs, ?_⟩
  intro h0 hlt
  rw [← elapsedSeconds_exact ti.now tj.now h0 hlt]
  exact hge

/-- C1 fails in the code. With `intervalSec = 16777216`, `timeoutSec = 16777217` and the
failing ticks `roundingTicks`, iteration 1 calls `poweroff`: line 79 computes 16777217 from a
duration of 16777216.999999999 s.  The whole seconds elapsed between the streak-start tick and
this tick are 16777216, less than `timeoutSec`. -/
theorem poweroff_before_whole_seconds :
    ∃ rs r, monitor "192.168.1.1" ⟨16777216, 16777217, 30⟩ roundingTicks = some rs ∧
      rs[1]? = some r ∧ invokesPoweroff r ∧
      r.events = [Event.progress 16777217 16777217, Event.poweroffTriggered,
        Event.systemctlPoweroff] ∧
      rs.length = 2 ∧
      (stateBefore ⟨16777216, 16777217, 30⟩ State.init roundingTicks 1).failSince =
        some 5000000000 ∧
      Int.tdiv (16777221999999999 - 5000000000) 1000000000 = 16777216 ∧
      ¬ ((16777217 : Int) ≤ Int.tdiv (16777221999999999 - 5000000000) 1000000000) :=
  ⟨monitorLoop ⟨16777216, 16777217, 30⟩ State.init roundingTicks,
    tickStep ⟨16777216, 16777217, 30⟩ ⟨some 5000000000, 0⟩
      ⟨16777221999999999, RunResult.otherError, false⟩,
    by decide, by decide, by decide, by decide, by decide, by decide, by decide, by decide⟩

/-- On `roundingTicks` the crossing follows line 79: with `timeoutSec = 16777217` the second
tick is the first to cross and the third is not executed; with `timeoutSec = 16777216` the
final progress line reports 16777217 seconds. -/
theorem rounding_run :
    crossesAt ⟨16777216, 16777217, 30⟩ roundingTicks 1 = true ∧
    crossesAt ⟨16777216, 16777217, 30⟩ roundingTicks 0 = false ∧
    (monitorLoop ⟨16777216, 16777217, 30⟩ State.init roundingTicks).length = 2 ∧
    (monitorLoop ⟨16777216, 16777216, 30⟩ State.init roundingTicks).map StepResult.events =
      [[Event.timerStarted],
        [Event.progress 16777217 16777216, Event.poweroffTriggered,
          Event.systemctlPoweroff]] := by
  decide

end PowerOutMon
